import Mathlib

/-!
Shallow embedding of the nRF5 SDK SAADC driver
(`src/targetlibs/nrf5x/nrf5_sdk/components/drivers_nrf/saadc/nrf_drv_saadc.c`)
and proofs about its state machine, resource allocator and limit decoder.

The driver's control block `m_cb` is embedded as the structure
`nrf_drv_saadc_cb_t`; the opaque peripheral register surface (input muxes,
result-buffer register, event flags, interrupt mask, task triggers) is
embedded as the structure `hw_state`, with every `nrf_saadc_*` register
primitive a small function on it.  Each driver entry point becomes a pure
function from (control block, hardware state, arguments) to
(return code, control block, hardware state).  The interrupt handler also
returns the list of callback events it emitted, in order.

Hardware events that arrive asynchronously during a foreground busy-wait
are represented by an observation trace `Nat → Bool` (the value the polled
event flag would read at each loop iteration); the unbounded wait at line
436 of the source is additionally given a direct step-indexed embedding
(`spinWaitExitedWithin`) used to reason about its (non-)termination.
-/

/-! ### Constants

Values of the peripheral / SDK header constants used by the driver.  The
headers are part of this repository but outside `src/`; the numeric values
below are modelled from the spec's description of the hardware surface
(8 channels, analog inputs `AIN0..AIN7` plus reference/VDD pseudo-inputs,
per-channel limit events laid out after the singleton events).  All proofs
depend only on the relative layout the driver's own macros assume.
-/

/-- Modelled from the spec: number of SAADC channels (`N = fixed channel count, e.g. 8`). -/
def NRF_SAADC_CHANNEL_COUNT : Nat := 8

/-- Modelled from the spec: `nrf_saadc_input_t` encoding, disabled sentinel. -/
def NRF_SAADC_INPUT_DISABLED : Nat := 0

/-- Modelled from the spec: first analog input pin `AIN0`. -/
def NRF_SAADC_INPUT_AIN0 : Nat := 1

/-- Modelled from the spec: last analog input pin `AIN7`. -/
def NRF_SAADC_INPUT_AIN7 : Nat := 8

/-- Modelled from the spec: the VDD pseudo-input (not an analog input pin). -/
def NRF_SAADC_INPUT_VDD : Nat := 9

/-- Modelled from the spec: register offset identifying the `STARTED` hardware event. -/
def NRF_SAADC_EVENT_STARTED : Nat := 0x100

/-- Modelled from the spec: register offset identifying the `END` (end-of-conversion) hardware event. -/
def NRF_SAADC_EVENT_END : Nat := 0x104

/-- Modelled from the spec: register offset identifying the `STOPPED` hardware event. -/
def NRF_SAADC_EVENT_STOPPED : Nat := 0x114

/-- Modelled from the spec: register offset of the channel-0 high-limit event;
per-channel limit events follow at 4-byte spacing, `LIMITH` before `LIMITL`
within each channel's pair (this is the layout the driver's
`FLAG_IDX_TO_EVENT` / `LIMIT_EVENT_TO_*` macros assume). -/
def NRF_SAADC_EVENT_CH0_LIMITH : Nat := 0x118

/-- Modelled from the spec: task identifier for `START`. -/
def NRF_SAADC_TASK_START : Nat := 0

/-- Modelled from the spec: task identifier for `SAMPLE`. -/
def NRF_SAADC_TASK_SAMPLE : Nat := 4

/-- Modelled from the spec: task identifier for `STOP`. -/
def NRF_SAADC_TASK_STOP : Nat := 8

/-- Modelled from the spec: interrupt-mask bit for the `END` interrupt source. -/
def NRF_SAADC_INT_END : Nat := 2

/-- Modelled from the spec: sentinel disabling the low limit (`INT16_MIN`). -/
def NRF_DRV_SAADC_LIMITL_DISABLED : Int := -32768

/-- Modelled from the spec: sentinel disabling the high limit (`INT16_MAX`). -/
def NRF_DRV_SAADC_LIMITH_DISABLED : Int := 32767

/-! ### Enumerations (source lines 19-23 and the SDK result/limit types) -/

/-- `nrf_saadc_state_t` (source lines 19-23). -/
inductive nrf_saadc_state_t where
  | idle
  | busy
deriving DecidableEq, Repr

/-- Driver lifecycle state (`nrf_drv_state_t`); the driver uses only these two values. -/
inductive nrf_drv_state_t where
  | uninitialized
  | initialized
deriving DecidableEq, Repr

/-- The `ret_code_t` values returned by this driver. -/
inductive ret_code_t where
  | NRF_SUCCESS
  | NRF_ERROR_INVALID_STATE
  | NRF_ERROR_INVALID_PARAM
  | NRF_ERROR_BUSY
  | NRF_ERROR_NO_MEM
deriving DecidableEq, Repr

/-- `nrf_saadc_limit_t`: which threshold of a channel's pair. -/
inductive nrf_saadc_limit_t where
  | low
  | high
deriving DecidableEq, Repr

/-- Callback events (`nrf_drv_saadc_evt_t`): buffer-done or decoded limit crossing. -/
inductive nrf_drv_saadc_evt_t where
  | done (p_buffer : Nat) (size : Nat)
  | limit (channel : Nat) (limit_type : nrf_saadc_limit_t)
deriving DecidableEq, Repr

/-! ### Data model -/

/-- `nrf_saadc_psel_buffer` (source lines 26-30): a channel's pin pair.
Pins are `nrf_saadc_input_t` values (`0` = disabled, `1..8` = `AIN0..AIN7`, `9` = VDD). -/
structure nrf_saadc_psel_buffer where
  pselp : Nat
  pseln : Nat
deriving DecidableEq, Repr

/-- The SAADC control block `m_cb` (source lines 35-52).  Pointers are
addresses as natural numbers with `0` playing the role of `NULL`;
`allocated_ains` is the `uint8` pin-allocation bitmask. -/
structure nrf_drv_saadc_cb_t where
  event_handler : Nat
  buffer : Nat
  buffer_size : Nat
  buffer_pos : Nat
  p_secondary_buffer : Nat
  limits_enabled_flags : Nat
  secondary_buffer_size : Nat
  psel : Fin NRF_SAADC_CHANNEL_COUNT → nrf_saadc_psel_buffer
  state : nrf_drv_state_t
  adc_state : nrf_saadc_state_t
  allocated_ains : Nat
  scan_pos : Nat
  active_channels : Nat

/-- The modelled register surface of the SAADC peripheral (the spec's
"opaque hardware control surface"): per-channel live input mux, the
result-buffer pointer/length register, event flags keyed by event offset,
the interrupt-enable mask, per-channel limit registers, the enable bits
and a chronological log of triggered tasks.  Channel mode/gain
configuration registers are outside this surface (the driver only writes
them, never reads them). -/
structure hw_state where
  events : Nat → Bool
  int_mask : Nat
  ch_input : Fin NRF_SAADC_CHANNEL_COUNT → Nat × Nat
  ch_limits : Fin NRF_SAADC_CHANNEL_COUNT → Int × Int
  buffer_ptr : Nat
  buffer_cnt : Nat
  tasks : List Nat
  resolution : Nat
  oversample : Nat
  irq_enabled : Bool
  enabled : Bool

/-! ### Peripheral register primitives -/

/-- `nrf_saadc_event_check`: read an event flag. -/
def nrf_saadc_event_check (event : Nat) (hw : hw_state) : Bool :=
  hw.events event

/-- `nrf_saadc_event_clear`: clear an event flag. -/
def nrf_saadc_event_clear (event : Nat) (hw : hw_state) : hw_state :=
  { hw with events := fun e => if e = event then false else hw.events e }

/-- `nrf_saadc_int_enable`: set the given bits in the interrupt mask. -/
def nrf_saadc_int_enable (mask : Nat) (hw : hw_state) : hw_state :=
  { hw with int_mask := hw.int_mask ||| mask }

/-- `nrf_saadc_int_disable`: clear the given bits in the interrupt mask
(`INTENCLR`; the mask register is 32 bits wide). -/
def nrf_saadc_int_disable (mask : Nat) (hw : hw_state) : hw_state :=
  { hw with int_mask := hw.int_mask &&& (0xFFFFFFFF ^^^ mask) }

/-- `nrf_saadc_channel_input_set`: program a channel's live input mux.
The driver sometimes calls this with an out-of-range index (see the claims
about the scan wrap-around); a write at an index `≥ NRF_SAADC_CHANNEL_COUNT`
has no modelled register behind it and is a no-op here. -/
def nrf_saadc_channel_input_set (channel : Nat) (pselp pseln : Nat) (hw : hw_state) : hw_state :=
  if h : channel < NRF_SAADC_CHANNEL_COUNT then
    { hw with ch_input := Function.update hw.ch_input ⟨channel, h⟩ (pselp, pseln) }
  else hw

/-- `nrf_saadc_buffer_init`: program the result-buffer pointer/length register. -/
def nrf_saadc_buffer_init (ptr cnt : Nat) (hw : hw_state) : hw_state :=
  { hw with buffer_ptr := ptr, buffer_cnt := cnt }

/-- `nrf_saadc_task_trigger`: trigger a task (logged chronologically). -/
def nrf_saadc_task_trigger (task : Nat) (hw : hw_state) : hw_state :=
  { hw with tasks := hw.tasks ++ [task] }

/-- `nrf_saadc_channel_limits_set`: program a channel's limit registers. -/
def nrf_saadc_channel_limits_set (channel : Fin NRF_SAADC_CHANNEL_COUNT)
    (low high : Int) (hw : hw_state) : hw_state :=
  { hw with ch_limits := Function.update hw.ch_limits channel (low, high) }

/-- Modelled from the spec: `nrf_saadc_limit_int_get` — the interrupt-mask
bit of one channel's low/high limit interrupt source (distinct per
(channel, kind), above the singleton sources). -/
def nrf_saadc_limit_int_get (channel : Nat) (limit_type : nrf_saadc_limit_t) : Nat :=
  1 <<< (6 + 2 * channel + (if limit_type = nrf_saadc_limit_t.low then 1 else 0))

/-! ### Flag-index macros (source lines 54-59) -/

/-- `LOW_LIMIT_TO_FLAG(channel) = 2*channel+1` (source line 54). -/
def LOW_LIMIT_TO_FLAG (channel : Nat) : Nat := 2 * channel + 1

/-- `HIGH_LIMIT_TO_FLAG(channel) = 2*channel` (source line 55). -/
def HIGH_LIMIT_TO_FLAG (channel : Nat) : Nat := 2 * channel

/-- `FLAG_IDX_TO_EVENT(idx) = NRF_SAADC_EVENT_CH0_LIMITH + 4*idx` (source line 56). -/
def FLAG_IDX_TO_EVENT (idx : Nat) : Nat := NRF_SAADC_EVENT_CH0_LIMITH + 4 * idx

/-- `LIMIT_EVENT_TO_CHANNEL(event)` (source line 57). -/
def LIMIT_EVENT_TO_CHANNEL (event : Nat) : Nat :=
  (event - NRF_SAADC_EVENT_CH0_LIMITH) / 8

/-- `LIMIT_EVENT_TO_LIMIT_TYPE(event)` (source lines 58-59). -/
def LIMIT_EVENT_TO_LIMIT_TYPE (event : Nat) : nrf_saadc_limit_t :=
  if (event - NRF_SAADC_EVENT_CH0_LIMITH) &&& 4 ≠ 0 then nrf_saadc_limit_t.low
  else nrf_saadc_limit_t.high

/-- The flag index a (threshold kind, channel) pair is armed under
(the index whose `0x80000000 >> idx` bit `limit_set` sets). -/
def limit_to_flag (limit_type : nrf_saadc_limit_t) (channel : Nat) : Nat :=
  match limit_type with
  | nrf_saadc_limit_t.low => LOW_LIMIT_TO_FLAG channel
  | nrf_saadc_limit_t.high => HIGH_LIMIT_TO_FLAG channel

/-- `__CLZ` on a nonzero 32-bit value: count of leading zeros. -/
def clz32 (n : Nat) : Nat :=
  if n = 0 then 32 else 31 - Nat.log2 n

/-! ### Static helpers (source lines 69-132) -/

/-- `ain_number` (source lines 69-72): analog-input number of an `AINx` input
(valid for `AINx` inputs only, which all callers guard with `input_is_ain`). -/
def ain_number (input : Nat) : Nat := input - NRF_SAADC_INPUT_AIN0

/-- `input_is_ain` (source lines 80-83). -/
def input_is_ain (input : Nat) : Bool :=
  decide (NRF_SAADC_INPUT_AIN0 ≤ input) && decide (input ≤ NRF_SAADC_INPUT_AIN7)

/-- `ain_is_allocated` (source lines 91-94): test a bit of `allocated_ains`. -/
def ain_is_allocated (cb : nrf_drv_saadc_cb_t) (channel : Nat) : Bool :=
  cb.allocated_ains &&& (1 <<< channel) ≠ 0

/-- `ain_set_allocated` (source lines 103-114).  The clear branch computes
`allocated_ains &= ~mask` on `uint8`, i.e. masks with `255 ^^^ mask`. -/
def ain_set_allocated (cb : nrf_drv_saadc_cb_t) (channel : Nat) (allocated : Bool) :
    nrf_drv_saadc_cb_t :=
  if allocated then
    { cb with allocated_ains := cb.allocated_ains ||| (1 <<< channel) }
  else
    { cb with allocated_ains := cb.allocated_ains &&& (255 ^^^ (1 <<< channel)) }

/-- `input_is_allocated` (source lines 125-132). -/
def input_is_allocated (cb : nrf_drv_saadc_cb_t) (input : Nat) : Bool :=
  input_is_ain input && ain_is_allocated cb (ain_number input)

/-- Read `m_cb.psel[i]` at a `Nat` index: the table has
`NRF_SAADC_CHANNEL_COUNT` entries; a read past the end has no defined
value in the source and yields the disabled pair here. -/
def pselAt (cb : nrf_drv_saadc_cb_t) (i : Nat) : nrf_saadc_psel_buffer :=
  if h : i < NRF_SAADC_CHANNEL_COUNT then cb.psel ⟨i, h⟩ else ⟨0, 0⟩

/-- First index `j` with `i ≤ j < NRF_SAADC_CHANNEL_COUNT` whose channel has a
non-disabled positive pin — the common shape of the driver's
`for (...; pos < NRF_SAADC_CHANNEL_COUNT; ++pos) if (m_cb.psel[pos].pselp)` loops.
Structural recursion on the explicit fuel `NRF_SAADC_CHANNEL_COUNT - i`. -/
def scanForActiveAux (psel : Fin NRF_SAADC_CHANNEL_COUNT → nrf_saadc_psel_buffer) :
    Nat → Nat → Option Nat
  | _, 0 => none
  | i, fuel + 1 =>
    if h : i < NRF_SAADC_CHANNEL_COUNT then
      if (psel ⟨i, h⟩).pselp ≠ NRF_SAADC_INPUT_DISABLED then some i
      else scanForActiveAux psel (i + 1) fuel
    else none

/-- First active channel at an index `≥ i` (see `scanForActiveAux`). -/
def scanForActive (psel : Fin NRF_SAADC_CHANNEL_COUNT → nrf_saadc_psel_buffer) (i : Nat) :
    Option Nat :=
  scanForActiveAux psel i (NRF_SAADC_CHANNEL_COUNT - i)

/-! ### Busy-wait loops

`busyWaitSteps obs i t` is the number of iterations executed by the bounded
loops `while (nrf_saadc_event_check(e) == 0 && timeout > 0) timeout--;`
(source lines 291-295 and 405-409) when the polled flag reads `obs (i+k)`
at the k-th iteration and `t` is the remaining `timeout`; the loop bodies
mutate nothing but the local counter.

`spinWaitExitedWithin obs n` embeds the unbounded handoff wait
`while (nrf_saadc_event_check(NRF_SAADC_EVENT_STARTED) == 0);`
(source line 436): it tells whether that loop has exited within the first
`n` iterations, i.e. whether the polled flag has read true at some earlier
iteration.  The loop has an empty body, so exiting is its only behaviour. -/

/-- Iterations executed by a bounded event-poll loop (see section comment). -/
def busyWaitSteps (obs : Nat → Bool) : Nat → Nat → Nat
  | _, 0 => 0
  | i, t + 1 => if obs i then 0 else busyWaitSteps obs (i + 1) t + 1

/-- Whether the unbounded started-event wait has exited within `n` iterations. -/
def spinWaitExitedWithin (obs : Nat → Bool) : Nat → Bool
  | 0 => false
  | n + 1 => spinWaitExitedWithin obs n || obs n

/-! ### Limit monitor (source lines 509-539) -/

/-- `nrf_drv_saadc_limit_set` (source lines 509-539): program both limit
registers, then independently arm/disarm each threshold's
`0x80000000 >> flag` bit in `limits_enabled_flags` and its interrupt
source (the disarm masks with the `uint32` complement of the bit). -/
def nrf_drv_saadc_limit_set (cb : nrf_drv_saadc_cb_t) (hw : hw_state)
    (channel : Fin NRF_SAADC_CHANNEL_COUNT) (limit_low limit_high : Int) :
    nrf_drv_saadc_cb_t × hw_state :=
  let hw := nrf_saadc_channel_limits_set channel limit_low limit_high hw
  let int_mask_l := nrf_saadc_limit_int_get channel.val nrf_saadc_limit_t.low
  let (cb, hw) :=
    if limit_low = NRF_DRV_SAADC_LIMITL_DISABLED then
      ({ cb with limits_enabled_flags :=
           cb.limits_enabled_flags &&& (0xFFFFFFFF ^^^ (0x80000000 >>> LOW_LIMIT_TO_FLAG channel.val)) },
       nrf_saadc_int_disable int_mask_l hw)
    else
      ({ cb with limits_enabled_flags :=
           cb.limits_enabled_flags ||| (0x80000000 >>> LOW_LIMIT_TO_FLAG channel.val) },
       nrf_saadc_int_enable int_mask_l hw)
  let int_mask_h := nrf_saadc_limit_int_get channel.val nrf_saadc_limit_t.high
  if limit_high = NRF_DRV_SAADC_LIMITH_DISABLED then
    ({ cb with limits_enabled_flags :=
         cb.limits_enabled_flags &&& (0xFFFFFFFF ^^^ (0x80000000 >>> HIGH_LIMIT_TO_FLAG channel.val)) },
     nrf_saadc_int_disable int_mask_h hw)
  else
    ({ cb with limits_enabled_flags :=
         cb.limits_enabled_flags ||| (0x80000000 >>> HIGH_LIMIT_TO_FLAG channel.val) },
     nrf_saadc_int_enable int_mask_h hw)

/-! ### Channel configuration (source lines 315-389) -/

/-- `nrf_drv_saadc_channel_init` (source lines 315-355).  The debug-only
`ASSERT`s are not part of the release-mode semantics embedded here; the
channel operand is a valid index.  `pin_p`/`pin_n` are the requested
`nrf_saadc_input_t` values from `p_config`.  The hardware channel
mode/gain write (`nrf_saadc_channel_init`) touches only registers outside
the modelled surface. -/
def nrf_drv_saadc_channel_init (cb : nrf_drv_saadc_cb_t) (hw : hw_state)
    (channel : Fin NRF_SAADC_CHANNEL_COUNT) (pin_p pin_n : Nat) :
    ret_code_t × nrf_drv_saadc_cb_t × hw_state :=
  if cb.adc_state = nrf_saadc_state_t.busy then
    (ret_code_t.NRF_ERROR_BUSY, cb, hw)
  else if input_is_allocated cb pin_p || input_is_allocated cb pin_n then
    (ret_code_t.NRF_ERROR_NO_MEM, cb, hw)
  else
    let cb := if input_is_ain pin_p then ain_set_allocated cb (ain_number pin_p) true else cb
    let cb := if input_is_ain pin_n then ain_set_allocated cb (ain_number pin_n) true else cb
    let cb :=
      if (cb.psel channel).pselp = NRF_SAADC_INPUT_DISABLED then
        { cb with active_channels := (cb.active_channels + 1) % 256 }
      else cb
    let cb := { cb with psel := Function.update cb.psel channel ⟨pin_p, pin_n⟩ }
    let hw := nrf_saadc_channel_input_set channel.val
                NRF_SAADC_INPUT_DISABLED NRF_SAADC_INPUT_DISABLED hw
    (ret_code_t.NRF_SUCCESS, cb, hw)

/-- `nrf_drv_saadc_channel_uninit` (source lines 358-389); again without the
debug-only `ASSERT`s (whose off-by-one bound is treated separately below).
`active_channels` is a `uint8`, so its decrement wraps modulo 256. -/
def nrf_drv_saadc_channel_uninit (cb : nrf_drv_saadc_cb_t) (hw : hw_state)
    (channel : Fin NRF_SAADC_CHANNEL_COUNT) :
    ret_code_t × nrf_drv_saadc_cb_t × hw_state :=
  if cb.adc_state = nrf_saadc_state_t.busy then
    (ret_code_t.NRF_ERROR_BUSY, cb, hw)
  else
    let cb :=
      if input_is_ain (cb.psel channel).pselp then
        ain_set_allocated cb (ain_number (cb.psel channel).pselp) false
      else cb
    let cb :=
      if input_is_ain (cb.psel channel).pseln then
        ain_set_allocated cb (ain_number (cb.psel channel).pseln) false
      else cb
    let cb :=
      if (cb.psel channel).pselp ≠ NRF_SAADC_INPUT_DISABLED then
        { cb with active_channels := (cb.active_channels + 255) % 256 }
      else cb
    let cb := { cb with psel := Function.update cb.psel channel ⟨NRF_SAADC_INPUT_DISABLED, NRF_SAADC_INPUT_DISABLED⟩ }
    let hw := nrf_saadc_channel_input_set channel.val
                NRF_SAADC_INPUT_DISABLED NRF_SAADC_INPUT_DISABLED hw
    let r := nrf_drv_saadc_limit_set cb hw channel
               NRF_DRV_SAADC_LIMITL_DISABLED NRF_DRV_SAADC_LIMITH_DISABLED
    (ret_code_t.NRF_SUCCESS, r.1, r.2)

/-! ### Blocking single-shot conversion (source lines 391-416) -/

/-- `nrf_drv_saadc_sample_convert` (source lines 391-416).  `end_obs` is the
observation trace of the polled `END` flag during the bounded wait
(100000 iterations); the loop mutates nothing, and the code clears the
event, demuxes the channel, re-enables the interrupt and reports success
whether or not the event was seen. -/
def nrf_drv_saadc_sample_convert (cb : nrf_drv_saadc_cb_t) (hw : hw_state)
    (channel : Fin NRF_SAADC_CHANNEL_COUNT) (p_value : Nat) (end_obs : Nat → Bool) :
    ret_code_t × nrf_drv_saadc_cb_t × hw_state :=
  if cb.adc_state ≠ nrf_saadc_state_t.idle then
    (ret_code_t.NRF_ERROR_BUSY, cb, hw)
  else
    let cb := { cb with adc_state := nrf_saadc_state_t.busy }
    let hw := nrf_saadc_int_disable NRF_SAADC_INT_END hw
    let hw := nrf_saadc_buffer_init p_value 1 hw
    let hw := nrf_saadc_channel_input_set channel.val
                (cb.psel channel).pselp (cb.psel channel).pseln hw
    let hw := nrf_saadc_task_trigger NRF_SAADC_TASK_START hw
    let hw := nrf_saadc_task_trigger NRF_SAADC_TASK_SAMPLE hw
    let _timeout_left := 100000 - busyWaitSteps
      (fun i => nrf_saadc_event_check NRF_SAADC_EVENT_END hw || end_obs i) 0 100000
    let hw := nrf_saadc_event_clear NRF_SAADC_EVENT_END hw
    let hw := nrf_saadc_channel_input_set channel.val
                NRF_SAADC_INPUT_DISABLED NRF_SAADC_INPUT_DISABLED hw
    let hw := nrf_saadc_int_enable NRF_SAADC_INT_END hw
    let cb := { cb with adc_state := nrf_saadc_state_t.idle }
    (ret_code_t.NRF_SUCCESS, cb, hw)

/-! ### Buffer conversion (source lines 418-483) -/

/-- `nrf_drv_saadc_buffer_convert` (source lines 418-483).

`started_fires` abstracts the asynchronous hardware behaviour during the
secondary-buffer handoff: whether the `STARTED` flag is (or ever becomes)
readable as set while the foreground spins on it at source line 436.  That
wait has no iteration bound, so when the flag is clear and never fires the
call never returns; this is modelled by the `none` result.  Every other
path returns `some`. -/
def nrf_drv_saadc_buffer_convert (cb : nrf_drv_saadc_cb_t) (hw : hw_state)
    (p_buffer : Nat) (size : Nat) (started_fires : Bool) :
    Option (ret_code_t × nrf_drv_saadc_cb_t × hw_state) :=
  let hw := nrf_saadc_int_disable NRF_SAADC_INT_END hw
  if cb.adc_state = nrf_saadc_state_t.busy then
    if cb.p_secondary_buffer ≠ 0 then
      some (ret_code_t.NRF_ERROR_BUSY, cb, nrf_saadc_int_enable NRF_SAADC_INT_END hw)
    else
      let cb := { cb with p_secondary_buffer := p_buffer, secondary_buffer_size := size }
      if cb.active_channels = 1 then
        if nrf_saadc_event_check NRF_SAADC_EVENT_STARTED hw || started_fires then
          let hw := nrf_saadc_event_clear NRF_SAADC_EVENT_STARTED hw
          let hw := nrf_saadc_buffer_init p_buffer size hw
          some (ret_code_t.NRF_SUCCESS, cb, nrf_saadc_int_enable NRF_SAADC_INT_END hw)
        else
          none
      else
        some (ret_code_t.NRF_SUCCESS, cb, nrf_saadc_int_enable NRF_SAADC_INT_END hw)
  else
    let hw := nrf_saadc_int_enable NRF_SAADC_INT_END hw
    let cb := { cb with adc_state := nrf_saadc_state_t.busy }
    let cb := { cb with scan_pos := NRF_SAADC_CHANNEL_COUNT }
    let cb :=
      match scanForActive cb.psel 0 with
      | some i => { cb with scan_pos := i }
      | none => cb
    if NRF_SAADC_CHANNEL_COUNT ≤ cb.scan_pos then
      some (ret_code_t.NRF_ERROR_INVALID_STATE, cb, hw)
    else
      let cb := { cb with buffer := p_buffer, buffer_size := size,
                          buffer_pos := 0, p_secondary_buffer := 0 }
      let hw := nrf_saadc_channel_input_set cb.scan_pos
                  (pselAt cb cb.scan_pos).pselp (pselAt cb cb.scan_pos).pseln hw
      let hw :=
        if cb.active_channels = 1 then nrf_saadc_buffer_init p_buffer size hw
        else nrf_saadc_buffer_init p_buffer 1 hw
      let hw := nrf_saadc_event_clear NRF_SAADC_EVENT_STARTED hw
      let hw := nrf_saadc_task_trigger NRF_SAADC_TASK_START hw
      some (ret_code_t.NRF_SUCCESS, cb, hw)

/-! ### Interrupt handler (source lines 134-245) -/

/-- The limit-flag scan of the interrupt handler (source lines 226-243):
repeatedly take the most significant set bit of the local copy of
`limits_enabled_flags` (via `__CLZ`), clear it, and if the corresponding
limit event fired, clear that event and emit the decoded limit callback.
Each iteration strictly clears a set bit of a 32-bit value, so the scan
runs at most `popcount` times; the explicit fuel (called with the initial
flag value, an upper bound on the popcount of any `uint32`) only makes
the recursion structural and is never exhausted first. -/
def limitScan (hw : hw_state) (evts : List nrf_drv_saadc_evt_t) :
    Nat → Nat → hw_state × List nrf_drv_saadc_evt_t
  | 0, _ => (hw, evts)
  | fuel + 1, limit_flags =>
    if limit_flags = 0 then (hw, evts)
    else
      let flag_idx := clz32 limit_flags
      let limit_flags := limit_flags &&& (0xFFFFFFFF ^^^ (0x80000000 >>> flag_idx))
      let event := FLAG_IDX_TO_EVENT flag_idx
      if nrf_saadc_event_check event hw then
        let hw := nrf_saadc_event_clear event hw
        limitScan hw
          (evts ++ [nrf_drv_saadc_evt_t.limit (LIMIT_EVENT_TO_CHANNEL event)
                      (LIMIT_EVENT_TO_LIMIT_TYPE event)])
          fuel limit_flags
      else
        limitScan hw evts fuel limit_flags

/-- The tail of the interrupt handler (source lines 219-244), reached unless
the scan-advance branch returned early: handle a `STOPPED` event, or else
scan the armed limit flags. -/
def irq_phase2 (cb : nrf_drv_saadc_cb_t) (hw : hw_state) (evts : List nrf_drv_saadc_evt_t) :
    nrf_drv_saadc_cb_t × hw_state × List nrf_drv_saadc_evt_t :=
  if nrf_saadc_event_check NRF_SAADC_EVENT_STOPPED hw then
    let hw := nrf_saadc_event_clear NRF_SAADC_EVENT_STOPPED hw
    ({ cb with adc_state := nrf_saadc_state_t.idle }, hw, evts)
  else
    let r := limitScan hw evts cb.limits_enabled_flags cb.limits_enabled_flags
    (cb, r.1, r.2)

/-- `SAADC_IRQHandler` (source lines 134-245).  Returns the new control
block, the new hardware state and the chronological list of callback
invocations; `none` if the handler reached the unbounded wait inside the
nested `nrf_drv_saadc_buffer_convert` call and diverged (that call enters
its idle branch, which never waits, so this does not in fact happen).

In the scan-advance branch the first search loop (`for (++m_cb.scan_pos; ...)`)
increments the `uint8` cursor and leaves it one past the last index tried
when no later active channel exists; the second loop then moves it to the
first active channel from the beginning if there is one.  When there is
none, `m_cb.scan_pos` remains out of range and the following
`psel[scan_pos]` read is past the end of the table (modelled by `pselAt`). -/
def SAADC_IRQHandler (cb : nrf_drv_saadc_cb_t) (hw : hw_state) :
    Option (nrf_drv_saadc_cb_t × hw_state × List nrf_drv_saadc_evt_t) :=
  if nrf_saadc_event_check NRF_SAADC_EVENT_END hw then
    let hw := nrf_saadc_event_clear NRF_SAADC_EVENT_END hw
    if cb.active_channels = 1 then
      let evt := nrf_drv_saadc_evt_t.done cb.buffer cb.buffer_size
      let (cb, hw) :=
        if cb.p_secondary_buffer = 0 then
          ({ cb with adc_state := nrf_saadc_state_t.idle }, hw)
        else
          ({ cb with buffer := cb.p_secondary_buffer,
                     buffer_size := cb.secondary_buffer_size,
                     p_secondary_buffer := 0 },
           nrf_saadc_task_trigger NRF_SAADC_TASK_START hw)
      some (irq_phase2 cb hw [evt])
    else
      let cb := { cb with buffer_pos := (cb.buffer_pos + 1) % 65536 }
      let buffer_pos := cb.buffer_pos
      if buffer_pos = cb.buffer_size then
        let evt := nrf_drv_saadc_evt_t.done cb.buffer cb.buffer_size
        let cb := { cb with adc_state := nrf_saadc_state_t.idle }
        if cb.p_secondary_buffer = 0 then
          some (irq_phase2 { cb with adc_state := nrf_saadc_state_t.idle } hw [evt])
        else
          match nrf_drv_saadc_buffer_convert cb hw cb.p_secondary_buffer
                  cb.secondary_buffer_size false with
          | none => none
          | some r => some (irq_phase2 r.2.1 r.2.2 [evt])
      else
        let current_scan_pos := cb.scan_pos
        let hw := nrf_saadc_channel_input_set current_scan_pos
                    NRF_SAADC_INPUT_DISABLED NRF_SAADC_INPUT_DISABLED hw
        let hw := nrf_saadc_buffer_init (cb.buffer + cb.buffer_pos) 1 hw
        let next := (cb.scan_pos + 1) % 256
        match scanForActive cb.psel next with
        | some k =>
          let cb := { cb with scan_pos := k }
          let hw := nrf_saadc_channel_input_set k
                      (pselAt cb k).pselp (pselAt cb k).pseln hw
          let hw := nrf_saadc_task_trigger NRF_SAADC_TASK_START hw
          let hw := nrf_saadc_task_trigger NRF_SAADC_TASK_SAMPLE hw
          some (cb, hw, [])
        | none =>
          let cb := { cb with scan_pos :=
            if next < NRF_SAADC_CHANNEL_COUNT then NRF_SAADC_CHANNEL_COUNT else next }
          let cb :=
            match scanForActive cb.psel 0 with
            | some i => { cb with scan_pos := i }
            | none => cb
          let hw := nrf_saadc_channel_input_set cb.scan_pos
                      (pselAt cb cb.scan_pos).pselp (pselAt cb cb.scan_pos).pseln hw
          let hw := nrf_saadc_task_trigger NRF_SAADC_TASK_START hw
          some (irq_phase2 cb hw [])
  else
    some (irq_phase2 cb hw [])

/-! ### Driver lifecycle (source lines 248-312) -/

/-- `nrf_drv_saadc_config_t`: the options recognized at init. -/
structure nrf_drv_saadc_config_t where
  resolution : Nat
  oversample : Nat
  interrupt_priority : Nat
deriving DecidableEq, Repr

/-- Modelled from the spec: the default configuration used when none is
supplied (`NRF_DRV_SAADC_DEFAULT_CONFIG`; concrete numbers are immaterial
to every claim). -/
def m_default_config : nrf_drv_saadc_config_t := ⟨1, 0, 3⟩

/-- `nrf_drv_saadc_init` (source lines 248-281). -/
def nrf_drv_saadc_init (cb : nrf_drv_saadc_cb_t) (hw : hw_state)
    (p_config : Option nrf_drv_saadc_config_t) (event_handler : Nat) :
    ret_code_t × nrf_drv_saadc_cb_t × hw_state :=
  if cb.state ≠ nrf_drv_state_t.uninitialized then
    (ret_code_t.NRF_ERROR_INVALID_STATE, cb, hw)
  else if event_handler = 0 then
    (ret_code_t.NRF_ERROR_INVALID_PARAM, cb, hw)
  else
    let config := p_config.getD m_default_config
    let cb := { cb with event_handler := event_handler }
    let hw := { hw with resolution := config.resolution }
    let hw := { hw with oversample := config.oversample }
    let cb := { cb with allocated_ains := 0 }
    let cb := { cb with state := nrf_drv_state_t.initialized }
    let cb := { cb with adc_state := nrf_saadc_state_t.idle }
    let cb := { cb with active_channels := 0 }
    let cb := { cb with buffer_pos := 0 }
    let cb := { cb with limits_enabled_flags := 0 }
    let hw := { hw with irq_enabled := true }
    let hw := nrf_saadc_int_enable NRF_SAADC_INT_END hw
    let hw := { hw with enabled := true }
    (ret_code_t.NRF_SUCCESS, cb, hw)

/-- The channel teardown loop of `nrf_drv_saadc_uninit` (source lines
303-309): for each channel with a non-disabled positive pin, call
`nrf_drv_saadc_channel_uninit` (result discarded).  Structural recursion
on the explicit fuel, called with `NRF_SAADC_CHANNEL_COUNT`. -/
def uninitChannelsLoop : Nat → Nat → nrf_drv_saadc_cb_t → hw_state →
    nrf_drv_saadc_cb_t × hw_state
  | _, 0, cb, hw => (cb, hw)
  | channel, fuel + 1, cb, hw =>
    if h : channel < NRF_SAADC_CHANNEL_COUNT then
      if (cb.psel ⟨channel, h⟩).pselp ≠ NRF_SAADC_INPUT_DISABLED then
        let r := nrf_drv_saadc_channel_uninit cb hw ⟨channel, h⟩
        uninitChannelsLoop (channel + 1) fuel r.2.1 r.2.2
      else
        uninitChannelsLoop (channel + 1) fuel cb hw
    else (cb, hw)

/-- `nrf_drv_saadc_uninit` (source lines 284-312).  `stopped_obs` is the
observation trace of the polled `STOPPED` flag during the bounded wait
(10000 iterations); the loop mutates nothing and the event is polled but
never cleared, after which `adc_state` is forced to idle regardless. -/
def nrf_drv_saadc_uninit (cb : nrf_drv_saadc_cb_t) (hw : hw_state)
    (stopped_obs : Nat → Bool) : nrf_drv_saadc_cb_t × hw_state :=
  let hw := nrf_saadc_task_trigger NRF_SAADC_TASK_STOP hw
  let _timeout_left := 10000 - busyWaitSteps
    (fun i => nrf_saadc_event_check NRF_SAADC_EVENT_STOPPED hw || stopped_obs i) 0 10000
  let cb := { cb with adc_state := nrf_saadc_state_t.idle }
  let hw := { hw with enabled := false }
  let hw := { hw with irq_enabled := false }
  let hw := nrf_saadc_int_disable NRF_SAADC_INT_END hw
  let r := uninitChannelsLoop 0 NRF_SAADC_CHANNEL_COUNT cb hw
  ({ r.1 with state := nrf_drv_state_t.uninitialized }, r.2)

/-- `nrf_drv_saadc_sample` (source lines 485-500). -/
def nrf_drv_saadc_sample (cb : nrf_drv_saadc_cb_t) (hw : hw_state) :
    ret_code_t × nrf_drv_saadc_cb_t × hw_state :=
  if cb.adc_state = nrf_saadc_state_t.idle then
    (ret_code_t.NRF_ERROR_BUSY, cb, hw)
  else
    (ret_code_t.NRF_SUCCESS, cb, nrf_saadc_task_trigger NRF_SAADC_TASK_SAMPLE hw)

/-- `nrf_drv_saadc_busy_check` (source lines 503-506). -/
def nrf_drv_saadc_busy_check (cb : nrf_drv_saadc_cb_t) : Bool :=
  cb.adc_state = nrf_saadc_state_t.busy

/-! ### The bounds assertion of `nrf_drv_saadc_channel_uninit` (source line 360)

The debug build aborts unless `ASSERT(channel <= NRF_SAADC_CHANNEL_COUNT)`
holds; the body then reads and writes `m_cb.psel[channel]` (source lines
369-385), an array of `NRF_SAADC_CHANNEL_COUNT` elements, so an access is
in bounds exactly when `channel < NRF_SAADC_CHANNEL_COUNT`. -/

/-- The predicate checked by the `ASSERT` at the top of
`nrf_drv_saadc_channel_uninit` (source line 360): `channel <= NRF_SAADC_CHANNEL_COUNT`. -/
def channel_uninit_bounds_check (channel : Nat) : Bool :=
  decide (channel ≤ NRF_SAADC_CHANNEL_COUNT)

/-- The indices at which `nrf_drv_saadc_channel_uninit` accesses the
`m_cb.psel` table (source lines 369-385: four reads and two writes, all at
index `channel`). -/
def channel_uninit_psel_indices (channel : Nat) : List Nat := [channel]

/-- Whether an index into the `m_cb.psel[NRF_SAADC_CHANNEL_COUNT]` table is in bounds. -/
def psel_index_in_bounds (i : Nat) : Bool :=
  decide (i < NRF_SAADC_CHANNEL_COUNT)

/-! ### Specification-level predicates -/

/-- The `nrf_saadc_input_t` value that selects analog input pin `p`. -/
def ainInput (p : Fin 8) : Nat := NRF_SAADC_INPUT_AIN0 + p.val

/-- Whether channel `c` currently references analog pin `p` as its positive
or negative input. -/
def channelRefsPin (psel : Fin NRF_SAADC_CHANNEL_COUNT → nrf_saadc_psel_buffer)
    (c : Fin NRF_SAADC_CHANNEL_COUNT) (p : Fin 8) : Bool :=
  decide ((psel c).pselp = ainInput p) || decide ((psel c).pseln = ainInput p)

/-- Number of channels currently referencing analog pin `p`. -/
def pinRefCount (psel : Fin NRF_SAADC_CHANNEL_COUNT → nrf_saadc_psel_buffer)
    (p : Fin 8) : Nat :=
  ∑ c : Fin NRF_SAADC_CHANNEL_COUNT, if channelRefsPin psel c p then 1 else 0

/-- The claimed allocator invariant: the `allocated_ains` bit of pin `p` is
set iff exactly one channel currently references `p`. -/
def allocBitsMatchRefs (cb : nrf_drv_saadc_cb_t) : Prop :=
  ∀ p : Fin 8, cb.allocated_ains.testBit p.val = true ↔ pinRefCount cb.psel p = 1

/-- The spec's exclusivity invariant: a pin is referenced by at most one
channel at a time. -/
def pinsExclusive (cb : nrf_drv_saadc_cb_t) : Prop :=
  ∀ p : Fin 8, pinRefCount cb.psel p ≤ 1

/-- Shape of every configuration the driver itself writes: a channel whose
positive pin is disabled has no negative pin either (`channel_init` always
sets both pins with `pin_p > DISABLED` asserted, `channel_uninit` clears both). -/
def pselWellFormed (cb : nrf_drv_saadc_cb_t) : Prop :=
  ∀ c : Fin NRF_SAADC_CHANNEL_COUNT,
    (cb.psel c).pselp = NRF_SAADC_INPUT_DISABLED →
      (cb.psel c).pseln = NRF_SAADC_INPUT_DISABLED

/-- The pin-allocation invariant of reachable driver states. -/
def pinInvariant (cb : nrf_drv_saadc_cb_t) : Prop :=
  allocBitsMatchRefs cb ∧ pinsExclusive cb ∧ pselWellFormed cb

/-- Legal evolution of the secondary-buffer slot across one operation:
while present it is either left exactly as it is or consumed (cleared);
it is never replaced by a different present value. -/
def secondaryEvolves (before after : nrf_drv_saadc_cb_t) : Prop :=
  before.p_secondary_buffer ≠ 0 →
    (after.p_secondary_buffer = before.p_secondary_buffer ∧
     after.secondary_buffer_size = before.secondary_buffer_size) ∨
    after.p_secondary_buffer = 0

/-! ### Concrete states used as counterexamples and witnesses -/

/-- A hardware state with no pending events, empty task log, everything quiescent. -/
def hw0 : hw_state :=
  { events := fun _ => false
    int_mask := NRF_SAADC_INT_END
    ch_input := fun _ => (0, 0)
    ch_limits := fun _ => (NRF_DRV_SAADC_LIMITL_DISABLED, NRF_DRV_SAADC_LIMITH_DISABLED)
    buffer_ptr := 0
    buffer_cnt := 0
    tasks := []
    resolution := 1
    oversample := 0
    irq_enabled := true
    enabled := true }

/-- An initialized, idle control block with no channels configured. -/
def cbIdleNoChannels : nrf_drv_saadc_cb_t :=
  { event_handler := 1
    buffer := 0
    buffer_size := 0
    buffer_pos := 0
    p_secondary_buffer := 0
    limits_enabled_flags := 0
    secondary_buffer_size := 0
    psel := fun _ => ⟨0, 0⟩
    state := nrf_drv_state_t.initialized
    adc_state := nrf_saadc_state_t.idle
    allocated_ains := 0
    scan_pos := 0
    active_channels := 0 }

/-- Initialized, idle, channel 0 configured with positive pin `AIN1`
(input value 2), matching `allocated_ains = 0b10`. -/
def cbOneChannel : nrf_drv_saadc_cb_t :=
  { cbIdleNoChannels with
      psel := fun c => if c.val = 0 then ⟨2, 0⟩ else ⟨0, 0⟩
      allocated_ains := 2
      active_channels := 1 }

/-- Reachable leaked state: no channel configured yet `AIN0`'s allocation
bit is stuck set (produced by `channel_init(0, AIN0)`, then
`channel_init(0, AIN1)` — which succeeds without releasing `AIN0` — then
`channel_uninit(0)`, which releases only `AIN1`). -/
def cbLeaked : nrf_drv_saadc_cb_t :=
  { cbIdleNoChannels with allocated_ains := 1 }

/-- Busy scanning two channels (0 on `AIN0`, 1 on `AIN2`) into a 4-sample
buffer at address 100: one sample taken, cursor on channel 1, no secondary
buffer.  The `END` event has just fired. -/
def cbScanTwo : nrf_drv_saadc_cb_t :=
  { cbIdleNoChannels with
      buffer := 100
      buffer_size := 4
      buffer_pos := 1
      psel := fun c => if c.val = 0 then ⟨1, 0⟩ else if c.val = 1 then ⟨3, 0⟩ else ⟨0, 0⟩
      adc_state := nrf_saadc_state_t.busy
      allocated_ains := 5
      scan_pos := 1
      active_channels := 2 }

/-- The hardware state seen by the interrupt handler in the `cbScanTwo`
scenario: the `END` event flag is set. -/
def hwEndFired : hw_state :=
  { hw0 with events := fun e => e = NRF_SAADC_EVENT_END }

/-- Busy with a secondary buffer already queued (primary at 100, secondary
at 200), single active channel 0 on `AIN1`. -/
def cbBusyQueued : nrf_drv_saadc_cb_t :=
  { cbOneChannel with
      buffer := 100
      buffer_size := 4
      p_secondary_buffer := 200
      secondary_buffer_size := 4
      adc_state := nrf_saadc_state_t.busy }

/-- Busy converting into the primary buffer with no secondary queued,
single active channel 0 on `AIN1`. -/
def cbBusyNoQueue : nrf_drv_saadc_cb_t :=
  { cbOneChannel with
      buffer := 100
      buffer_size := 4
      adc_state := nrf_saadc_state_t.busy }

instance (cb : nrf_drv_saadc_cb_t) : Decidable (allocBitsMatchRefs cb) := by
  unfold allocBitsMatchRefs; infer_instance

instance (cb : nrf_drv_saadc_cb_t) : Decidable (pinsExclusive cb) := by
  unfold pinsExclusive; infer_instance

instance (cb : nrf_drv_saadc_cb_t) : Decidable (pselWellFormed cb) := by
  unfold pselWellFormed; infer_instance

instance (cb : nrf_drv_saadc_cb_t) : Decidable (pinInvariant cb) := by
  unfold pinInvariant; infer_instance

instance : Fintype nrf_saadc_limit_t :=
  ⟨⟨{nrf_saadc_limit_t.low, nrf_saadc_limit_t.high}, by decide⟩, by intro x; cases x <;> decide⟩

/-! ## Theorems -/

/-! ### Busy-wait loops -/

theorem busyWaitSteps_le (obs : Nat → Bool) : ∀ (t i : Nat), busyWaitSteps obs i t ≤ t := by
  intro t
  induction t with
  | zero => intro i; simp [busyWaitSteps]
  | succ t ih =>
    intro i
    simp only [busyWaitSteps]
    split
    · exact Nat.zero_le _
    · exact Nat.succ_le_succ (ih (i + 1))

theorem spinWaitExitedWithin_iff (obs : Nat → Bool) :
    ∀ n : Nat, spinWaitExitedWithin obs n = true ↔ ∃ i : Nat, i < n ∧ obs i = true := by
  intro n
  induction n with
  | zero => simp [spinWaitExitedWithin]
  | succ n ih =>
    simp only [spinWaitExitedWithin, Bool.or_eq_true, ih]
    constructor
    · rintro (⟨i, hi, h⟩ | h)
      · exact ⟨i, Nat.lt_succ_of_lt hi, h⟩
      · exact ⟨n, Nat.lt_succ_self n, h⟩
    · rintro ⟨i, hi, h⟩
      rcases Nat.lt_succ_iff_lt_or_eq.mp hi with hi' | rfl
      · exact Or.inl ⟨i, hi', h⟩
      · exact Or.inr h

/-! ### Claim C7 -/

/-- C7: for every channel `c` in `0..7` and each threshold kind, the armed-limits
bit layout round-trips: `(c, kind)` maps to its flag index (`HIGH_LIMIT_TO_FLAG`
before `LOW_LIMIT_TO_FLAG` within each channel's pair), `FLAG_IDX_TO_EVENT`
maps that index to its hardware limit event, and `LIMIT_EVENT_TO_CHANNEL` /
`LIMIT_EVENT_TO_LIMIT_TYPE` decode that event back to channel `c` and the
same threshold kind. -/
theorem C7_limit_flag_roundtrip :
    ∀ (c : Fin NRF_SAADC_CHANNEL_COUNT) (t : nrf_saadc_limit_t),
      LIMIT_EVENT_TO_CHANNEL (FLAG_IDX_TO_EVENT (limit_to_flag t c.val)) = c.val ∧
      LIMIT_EVENT_TO_LIMIT_TYPE (FLAG_IDX_TO_EVENT (limit_to_flag t c.val)) = t := by
  decide

/-! ### Claim C9 -/

/-- C9: the debug bounds assertion of `channel_uninit` checks
`channel <= NRF_SAADC_CHANNEL_COUNT` rather than `<`, so the out-of-range
index equal to the channel count passes the assertion while every `psel`
access the body then performs at that index is one element past the end of
the table; for every index strictly below the channel count all the body's
table accesses are in bounds. -/
theorem C9_channel_uninit_assertion_off_by_one :
    channel_uninit_bounds_check NRF_SAADC_CHANNEL_COUNT = true ∧
    (channel_uninit_psel_indices NRF_SAADC_CHANNEL_COUNT).all
      (fun i => !psel_index_in_bounds i) = true ∧
    ((List.range NRF_SAADC_CHANNEL_COUNT).all fun channel =>
      channel_uninit_bounds_check channel &&
      (channel_uninit_psel_indices channel).all psel_index_in_bounds) = true := by
  decide

/-! ### Claim C1 -/

/-- C1 (failing-input evaluation): calling `buffer_convert` on an
initialized, idle driver with no channel configured returns
`NRF_ERROR_INVALID_STATE`, but — contrary to the claim that the driver
state is left unchanged and still idle — the returned control block has
`adc_state = BUSY` (and `scan_pos` pushed past the last channel), because
the source assigns `m_cb.adc_state = NRF_SAADC_STATE_BUSY` (line 446)
before the active-channel search and never restores it on the error path. -/
theorem C1_invalid_state_leaves_driver_busy :
    (nrf_drv_saadc_buffer_convert cbIdleNoChannels hw0 100 4 false).map
        (fun r => (r.1, r.2.1.adc_state, r.2.1.scan_pos)) =
      some (ret_code_t.NRF_ERROR_INVALID_STATE, nrf_saadc_state_t.busy,
            NRF_SAADC_CHANNEL_COUNT) ∧
    cbIdleNoChannels.adc_state = nrf_saadc_state_t.idle ∧
    (∀ c : Fin NRF_SAADC_CHANNEL_COUNT,
      (cbIdleNoChannels.psel c).pselp = NRF_SAADC_INPUT_DISABLED) := by
  refine ⟨by decide, by decide, by decide⟩

/-! ### Claim C4 -/

/-- C4 (counterexample): the secondary-buffer handoff wait in
`buffer_convert` (source line 436) has no iteration bound at all — if the
`STARTED` flag never reads set, the loop has not exited after any number
of iterations, contradicting the claim that every blocking wait in the
driver terminates after a fixed iteration bound even when the awaited
hardware event never occurs. -/
theorem C4_handoff_wait_unbounded :
    ¬ ∃ n : Nat, spinWaitExitedWithin (fun _ => false) n = true := by
  rintro ⟨n, hn⟩
  rw [spinWaitExitedWithin_iff] at hn
  rcases hn with ⟨i, _, h⟩
  exact Bool.false_ne_true h

/-- C4 (amended): the stop wait in `uninit` and the end-of-conversion wait
in `sample_convert` are bounded busy-waits (at most 10000 resp. 100000
iterations whatever the polled flag does), but the secondary-buffer
handoff wait in `buffer_convert` is unbounded: it exits exactly when the
`STARTED` flag is observed set at some iteration, and when that happens
(with the driver busy, no secondary queued and exactly one active channel)
`buffer_convert` proceeds and returns success. -/
theorem C4_wait_bounds :
    (∀ (obs : Nat → Bool) (i : Nat), busyWaitSteps obs i 10000 ≤ 10000) ∧
    (∀ (obs : Nat → Bool) (i : Nat), busyWaitSteps obs i 100000 ≤ 100000) ∧
    (∀ obs : Nat → Bool,
      (∃ n, spinWaitExitedWithin obs n = true) ↔ (∃ i, obs i = true)) ∧
    (∀ (cb : nrf_drv_saadc_cb_t) (hw : hw_state) (p_buffer size : Nat),
      cb.adc_state = nrf_saadc_state_t.busy →
      cb.p_secondary_buffer = 0 →
      cb.active_channels = 1 →
      (nrf_drv_saadc_buffer_convert cb hw p_buffer size true).map Prod.fst =
        some ret_code_t.NRF_SUCCESS) := by
  refine ⟨fun obs i => busyWaitSteps_le obs 10000 i,
          fun obs i => busyWaitSteps_le obs 100000 i, ?_, ?_⟩
  · intro obs
    constructor
    · rintro ⟨n, hn⟩
      rcases (spinWaitExitedWithin_iff obs n).mp hn with ⟨i, _, h⟩
      exact ⟨i, h⟩
    · rintro ⟨i, h⟩
      exact ⟨i + 1, (spinWaitExitedWithin_iff obs (i + 1)).mpr ⟨i, Nat.lt_succ_self i, h⟩⟩
  · intro cb hw p_buffer size hbusy hsec hactive
    simp [nrf_drv_saadc_buffer_convert, hbusy, hsec, hactive]

/-- Witness for `C4_wait_bounds` at a concrete busy single-channel state. -/
theorem C4_wait_bounds_witness :
    cbBusyNoQueue.adc_state = nrf_saadc_state_t.busy ∧
    (nrf_drv_saadc_buffer_convert cbBusyNoQueue hw0 200 4 true).map Prod.fst =
      some ret_code_t.NRF_SUCCESS :=
  ⟨rfl, C4_wait_bounds.2.2.2 cbBusyNoQueue hw0 200 4 rfl rfl rfl⟩

/-! ### Bit-level lemmas about the `uint8` allocation mask -/

theorem testBit_set_ain (a k : Nat) (p : Fin 8) :
    (a ||| (1 <<< k)).testBit p.val = (a.testBit p.val || decide (k = p.val)) := by
  rw [Nat.testBit_or, Nat.one_shiftLeft, Nat.testBit_two_pow]

theorem testBit_255 (p : Fin 8) : (255 : Nat).testBit p.val = true := by
  have h : (255 : Nat) = 2 ^ 8 - 1 := rfl
  rw [h, Nat.testBit_two_pow_sub_one]
  simp [p.isLt]

theorem testBit_clear_ain (a k : Nat) (p : Fin 8) :
    (a &&& (255 ^^^ (1 <<< k))).testBit p.val = (a.testBit p.val && !decide (k = p.val)) := by
  rw [Nat.testBit_and, Nat.testBit_xor, Nat.one_shiftLeft, Nat.testBit_two_pow, testBit_255,
    Bool.true_xor]

theorem input_is_ain_ainInput (p : Fin 8) : input_is_ain (ainInput p) = true := by
  have := p.isLt
  simp [input_is_ain, ainInput, NRF_SAADC_INPUT_AIN0, NRF_SAADC_INPUT_AIN7]
  omega

theorem ain_number_eq_iff (v : Nat) (p : Fin 8) (hv : input_is_ain v = true) :
    (ain_number v = p.val) ↔ v = ainInput p := by
  simp [input_is_ain, NRF_SAADC_INPUT_AIN0, NRF_SAADC_INPUT_AIN7] at hv
  simp [ain_number, ainInput, NRF_SAADC_INPUT_AIN0]
  omega

theorem not_ain_ne_ainInput (v : Nat) (p : Fin 8) (hv : ¬ input_is_ain v = true) :
    v ≠ ainInput p := by
  intro h
  exact hv (h ▸ input_is_ain_ainInput p)

theorem and_pow_ne_zero_iff (a k : Nat) : (a &&& (1 <<< k) ≠ 0) ↔ a.testBit k = true := by
  rw [Nat.one_shiftLeft]
  constructor
  · intro h
    by_contra hbit
    apply h
    apply Nat.eq_of_testBit_eq
    intro i
    simp only [Nat.testBit_and, Nat.testBit_two_pow, Nat.zero_testBit]
    by_cases hik : k = i
    · subst hik
      simp [Bool.eq_false_iff.mpr hbit]
    · simp [hik]
  · intro hbit h0
    have h1 := congrArg (fun n => n.testBit k) h0
    simp [Nat.testBit_and, Nat.testBit_two_pow, hbit] at h1

/-! ### Reference counts and the pin-allocation invariant -/

theorem channelRefsPin_eq_true_iff (psel : Fin NRF_SAADC_CHANNEL_COUNT → nrf_saadc_psel_buffer)
    (ch : Fin NRF_SAADC_CHANNEL_COUNT) (p : Fin 8) :
    channelRefsPin psel ch p = true ↔
      ((psel ch).pselp = ainInput p ∨ (psel ch).pseln = ainInput p) := by
  simp [channelRefsPin]

theorem disabled_ne_ainInput (p : Fin 8) : NRF_SAADC_INPUT_DISABLED ≠ ainInput p := by
  simp only [ainInput, NRF_SAADC_INPUT_DISABLED, NRF_SAADC_INPUT_AIN0]
  omega

theorem pinRefCount_update (psel : Fin NRF_SAADC_CHANNEL_COUNT → nrf_saadc_psel_buffer)
    (ch : Fin NRF_SAADC_CHANNEL_COUNT) (v : nrf_saadc_psel_buffer) (p : Fin 8) :
    pinRefCount (Function.update psel ch v) p + (if channelRefsPin psel ch p then 1 else 0) =
      pinRefCount psel p +
        (if (decide (v.pselp = ainInput p) || decide (v.pseln = ainInput p)) = true then 1 else 0) := by
  unfold pinRefCount
  rw [← Finset.add_sum_erase Finset.univ _ (Finset.mem_univ ch),
    ← Finset.add_sum_erase Finset.univ
      (fun c => if channelRefsPin psel c p then 1 else 0) (Finset.mem_univ ch)]
  have hsum : (∑ c ∈ Finset.univ.erase ch,
        if channelRefsPin (Function.update psel ch v) c p then 1 else 0) =
      ∑ c ∈ Finset.univ.erase ch, if channelRefsPin psel c p then 1 else 0 := by
    refine Finset.sum_congr rfl fun c hc => ?_
    have hne : c ≠ ch := Finset.ne_of_mem_erase hc
    simp [channelRefsPin, Function.update_noteq hne]
  rw [hsum]
  have hch : channelRefsPin (Function.update psel ch v) ch p =
      (decide (v.pselp = ainInput p) || decide (v.pseln = ainInput p)) := by
    simp [channelRefsPin, Function.update_same]
  rw [hch]
  omega

/-! ### `channel_uninit`: explicit successful-path shape -/

theorem channel_uninit_shape (cb : nrf_drv_saadc_cb_t) (hw : hw_state)
    (ch : Fin NRF_SAADC_CHANNEL_COUNT) (hidle : cb.adc_state = nrf_saadc_state_t.idle) :
    (nrf_drv_saadc_channel_uninit cb hw ch).1 = ret_code_t.NRF_SUCCESS ∧
    (nrf_drv_saadc_channel_uninit cb hw ch).2.1.psel =
      Function.update cb.psel ch ⟨NRF_SAADC_INPUT_DISABLED, NRF_SAADC_INPUT_DISABLED⟩ ∧
    (nrf_drv_saadc_channel_uninit cb hw ch).2.1.adc_state = cb.adc_state ∧
    (nrf_drv_saadc_channel_uninit cb hw ch).2.1.state = cb.state ∧
    (nrf_drv_saadc_channel_uninit cb hw ch).2.1.allocated_ains =
      (if input_is_ain (cb.psel ch).pseln then
        (if input_is_ain (cb.psel ch).pselp then
          cb.allocated_ains &&& (255 ^^^ (1 <<< ain_number (cb.psel ch).pselp))
         else cb.allocated_ains) &&& (255 ^^^ (1 <<< ain_number (cb.psel ch).pseln))
       else
        (if input_is_ain (cb.psel ch).pselp then
          cb.allocated_ains &&& (255 ^^^ (1 <<< ain_number (cb.psel ch).pselp))
         else cb.allocated_ains)) := by
  have hb : ¬ cb.adc_state = nrf_saadc_state_t.busy := by
    rw [hidle]; exact fun h => nomatch h
  rcases hps : cb.psel ch with ⟨op, onn⟩
  by_cases h3 : op = NRF_SAADC_INPUT_DISABLED
  · have h1 : input_is_ain op = false := by rw [h3]; rfl
    have h4 : ¬ (op ≠ NRF_SAADC_INPUT_DISABLED) := by simp [h3]
    by_cases h2 : input_is_ain onn = true <;>
      simp [nrf_drv_saadc_channel_uninit, if_neg hb, nrf_drv_saadc_limit_set,
        nrf_saadc_channel_limits_set, nrf_saadc_int_disable, nrf_saadc_int_enable,
        nrf_saadc_channel_input_set, ain_set_allocated, hps, h1, h2, h4]
  · by_cases h1 : input_is_ain op = true <;> by_cases h2 : input_is_ain onn = true <;>
      simp [nrf_drv_saadc_channel_uninit, if_neg hb, nrf_drv_saadc_limit_set,
        nrf_saadc_channel_limits_set, nrf_saadc_int_disable, nrf_saadc_int_enable,
        nrf_saadc_channel_input_set, ain_set_allocated, hps, h1, h2, h3]

theorem channel_uninit_preserves_pinInvariant (cb : nrf_drv_saadc_cb_t) (hw : hw_state)
    (ch : Fin NRF_SAADC_CHANNEL_COUNT)
    (hidle : cb.adc_state = nrf_saadc_state_t.idle) (hinv : pinInvariant cb) :
    pinInvariant (nrf_drv_saadc_channel_uninit cb hw ch).2.1 := by
  obtain ⟨hA, hB, hC⟩ := hinv
  obtain ⟨-, hpsel, -, -, halloc⟩ := channel_uninit_shape cb hw ch hidle
  have hbit : ∀ p : Fin 8,
      (nrf_drv_saadc_channel_uninit cb hw ch).2.1.allocated_ains.testBit p.val =
      (cb.allocated_ains.testBit p.val &&
        !decide ((cb.psel ch).pselp = ainInput p) &&
        !decide ((cb.psel ch).pseln = ainInput p)) := by
    intro p
    rw [halloc]
    by_cases h1 : input_is_ain (cb.psel ch).pselp = true <;>
      by_cases h2 : input_is_ain (cb.psel ch).pseln = true
    · have he1 : decide (ain_number (cb.psel ch).pselp = p.val) =
          decide ((cb.psel ch).pselp = ainInput p) :=
        decide_eq_decide.mpr (ain_number_eq_iff _ p h1)
      have he2 : decide (ain_number (cb.psel ch).pseln = p.val) =
          decide ((cb.psel ch).pseln = ainInput p) :=
        decide_eq_decide.mpr (ain_number_eq_iff _ p h2)
      rw [if_pos h2, if_pos h1, testBit_clear_ain, testBit_clear_ain, he1, he2]
    · have he1 : decide (ain_number (cb.psel ch).pselp = p.val) =
          decide ((cb.psel ch).pselp = ainInput p) :=
        decide_eq_decide.mpr (ain_number_eq_iff _ p h1)
      have hd2 : decide ((cb.psel ch).pseln = ainInput p) = false := by
        rw [decide_eq_false_iff_not]; exact not_ain_ne_ainInput _ p h2
      rw [if_neg h2, if_pos h1, testBit_clear_ain, he1, hd2]
      simp
    · have he2 : decide (ain_number (cb.psel ch).pseln = p.val) =
          decide ((cb.psel ch).pseln = ainInput p) :=
        decide_eq_decide.mpr (ain_number_eq_iff _ p h2)
      have hd1 : decide ((cb.psel ch).pselp = ainInput p) = false := by
        rw [decide_eq_false_iff_not]; exact not_ain_ne_ainInput _ p h1
      rw [if_pos h2, if_neg h1, testBit_clear_ain, he2, hd1]
      simp [Bool.and_comm, Bool.and_assoc]
    · have hd1 : decide ((cb.psel ch).pselp = ainInput p) = false := by
        rw [decide_eq_false_iff_not]; exact not_ain_ne_ainInput _ p h1
      have hd2 : decide ((cb.psel ch).pseln = ainInput p) = false := by
        rw [decide_eq_false_iff_not]; exact not_ain_ne_ainInput _ p h2
      rw [if_neg h2, if_neg h1, hd1, hd2]
      simp
  have hcount : ∀ p : Fin 8,
      pinRefCount (nrf_drv_saadc_channel_uninit cb hw ch).2.1.psel p +
        (if channelRefsPin cb.psel ch p then 1 else 0) = pinRefCount cb.psel p := by
    intro p
    rw [hpsel]
    have h := pinRefCount_update cb.psel ch
      ⟨NRF_SAADC_INPUT_DISABLED, NRF_SAADC_INPUT_DISABLED⟩ p
    simpa [decide_eq_false (disabled_ne_ainInput p)] using h
  refine ⟨?_, ?_, ?_⟩
  · intro p
    rw [hbit p]
    by_cases hr : channelRefsPin cb.psel ch p = true
    · have hcnt := hcount p
      rw [if_pos hr] at hcnt
      have hle := hB p
      rcases (channelRefsPin_eq_true_iff cb.psel ch p).mp hr with hop | hon
      · simp [hop]
        omega
      · simp [hon]
        omega
    · have hcnt := hcount p
      rw [if_neg hr] at hcnt
      rw [channelRefsPin_eq_true_iff] at hr
      push_neg at hr
      have hd1 : decide ((cb.psel ch).pselp = ainInput p) = false := by
        rw [decide_eq_false_iff_not]; exact hr.1
      have hd2 : decide ((cb.psel ch).pseln = ainInput p) = false := by
        rw [decide_eq_false_iff_not]; exact hr.2
      rw [hd1, hd2]
      have hcnt' : pinRefCount (nrf_drv_saadc_channel_uninit cb hw ch).2.1.psel p =
          pinRefCount cb.psel p := by omega
      rw [hcnt']
      simpa using hA p
  · intro p
    have hcnt := hcount p
    have hle := hB p
    split at hcnt <;> omega
  · intro c
    rw [hpsel]
    by_cases hc : c = ch
    · subst hc
      simp [Function.update_same]
    · rw [Function.update_noteq hc]
      exact hC c

theorem channel_init_no_mem (cb : nrf_drv_saadc_cb_t) (hw : hw_state)
    (ch : Fin NRF_SAADC_CHANNEL_COUNT) (pin_p pin_n : Nat)
    (hidle : cb.adc_state = nrf_saadc_state_t.idle) :
    ((nrf_drv_saadc_channel_init cb hw ch pin_p pin_n).1 = ret_code_t.NRF_ERROR_NO_MEM ↔
      (input_is_allocated cb pin_p || input_is_allocated cb pin_n) = true) ∧
    ((input_is_allocated cb pin_p || input_is_allocated cb pin_n) = true →
      nrf_drv_saadc_channel_init cb hw ch pin_p pin_n = (ret_code_t.NRF_ERROR_NO_MEM, cb, hw)) := by
  have hb : ¬ cb.adc_state = nrf_saadc_state_t.busy := by
    rw [hidle]; exact fun h => nomatch h
  by_cases halloc : (input_is_allocated cb pin_p || input_is_allocated cb pin_n) = true
  · refine ⟨⟨fun _ => halloc, fun _ => ?_⟩, fun _ => ?_⟩ <;>
      simp [nrf_drv_saadc_channel_init, if_neg hb, halloc]
  · refine ⟨⟨fun hr => absurd ?_ halloc, fun h => absurd h halloc⟩, fun h => absurd h halloc⟩
    by_contra h
    rw [Bool.eq_false_iff.mpr h] at halloc
    simp [nrf_drv_saadc_channel_init, if_neg hb, Bool.eq_false_iff.mpr h] at hr

theorem channel_init_shape (cb : nrf_drv_saadc_cb_t) (hw : hw_state)
    (ch : Fin NRF_SAADC_CHANNEL_COUNT) (pin_p pin_n : Nat)
    (hidle : cb.adc_state = nrf_saadc_state_t.idle)
    (hfree : (input_is_allocated cb pin_p || input_is_allocated cb pin_n) = false) :
    (nrf_drv_saadc_channel_init cb hw ch pin_p pin_n).1 = ret_code_t.NRF_SUCCESS ∧
    (nrf_drv_saadc_channel_init cb hw ch pin_p pin_n).2.1.psel =
      Function.update cb.psel ch ⟨pin_p, pin_n⟩ ∧
    (nrf_drv_saadc_channel_init cb hw ch pin_p pin_n).2.1.adc_state = cb.adc_state ∧
    (nrf_drv_saadc_channel_init cb hw ch pin_p pin_n).2.1.state = cb.state ∧
    (nrf_drv_saadc_channel_init cb hw ch pin_p pin_n).2.1.allocated_ains =
      (if input_is_ain pin_n then
        (if input_is_ain pin_p then cb.allocated_ains ||| (1 <<< ain_number pin_p)
         else cb.allocated_ains) ||| (1 <<< ain_number pin_n)
       else
        (if input_is_ain pin_p then cb.allocated_ains ||| (1 <<< ain_number pin_p)
         else cb.allocated_ains)) := by
  have hb : ¬ cb.adc_state = nrf_saadc_state_t.busy := by
    rw [hidle]; exact fun h => nomatch h
  have hfree' : ¬ (input_is_allocated cb pin_p || input_is_allocated cb pin_n) = true := by
    simp [hfree]
  by_cases h1 : input_is_ain pin_p = true <;> by_cases h2 : input_is_ain pin_n = true <;>
    by_cases h5 : (cb.psel ch).pselp = NRF_SAADC_INPUT_DISABLED <;>
    simp [nrf_drv_saadc_channel_init, if_neg hb, hfree', ain_set_allocated,
      nrf_saadc_channel_input_set, h1, h2, h5]

theorem channel_init_preserves_pinInvariant (cb : nrf_drv_saadc_cb_t) (hw : hw_state)
    (ch : Fin NRF_SAADC_CHANNEL_COUNT) (pin_p pin_n : Nat)
    (hidle : cb.adc_state = nrf_saadc_state_t.idle)
    (hfree : (input_is_allocated cb pin_p || input_is_allocated cb pin_n) = false)
    (hinact : (cb.psel ch).pselp = NRF_SAADC_INPUT_DISABLED)
    (hpp : pin_p ≠ NRF_SAADC_INPUT_DISABLED)
    (hinv : pinInvariant cb) :
    pinInvariant (nrf_drv_saadc_channel_init cb hw ch pin_p pin_n).2.1 := by
  obtain ⟨hA, hB, hC⟩ := hinv
  obtain ⟨-, hpsel, -, -, halloc⟩ := channel_init_shape cb hw ch pin_p pin_n hidle hfree
  have hpseln : (cb.psel ch).pseln = NRF_SAADC_INPUT_DISABLED := hC ch hinact
  -- the old channel references no pin
  have hold : ∀ p : Fin 8, channelRefsPin cb.psel ch p = false := by
    intro p
    rw [Bool.eq_false_iff]
    intro h
    rcases (channelRefsPin_eq_true_iff cb.psel ch p).mp h with h' | h'
    · exact disabled_ne_ainInput p (hinact ▸ h')
    · exact disabled_ne_ainInput p (hpseln ▸ h')
  -- allocation bits of the pins being claimed are clear
  have hfreep : input_is_ain pin_p = true → cb.allocated_ains.testBit (ain_number pin_p) = false := by
    intro h
    have h1 : input_is_allocated cb pin_p = false := by
      rcases Bool.or_eq_false_iff.mp hfree with ⟨ha, -⟩
      exact ha
    rw [input_is_allocated, h, Bool.true_and, ain_is_allocated] at h1
    rw [Bool.eq_false_iff]
    intro hb
    rw [decide_eq_false_iff_not] at h1
    exact h1 ((and_pow_ne_zero_iff _ _).mpr hb)
  have hfreen : input_is_ain pin_n = true → cb.allocated_ains.testBit (ain_number pin_n) = false := by
    intro h
    have h1 : input_is_allocated cb pin_n = false := by
      rcases Bool.or_eq_false_iff.mp hfree with ⟨-, ha⟩
      exact ha
    rw [input_is_allocated, h, Bool.true_and, ain_is_allocated] at h1
    rw [Bool.eq_false_iff]
    intro hb
    rw [decide_eq_false_iff_not] at h1
    exact h1 ((and_pow_ne_zero_iff _ _).mpr hb)
  have hbit : ∀ p : Fin 8,
      (nrf_drv_saadc_channel_init cb hw ch pin_p pin_n).2.1.allocated_ains.testBit p.val =
      (cb.allocated_ains.testBit p.val ||
        decide (pin_p = ainInput p) || decide (pin_n = ainInput p)) := by
    intro p
    rw [halloc]
    by_cases h1 : input_is_ain pin_p = true <;> by_cases h2 : input_is_ain pin_n = true
    · have he1 : decide (ain_number pin_p = p.val) = decide (pin_p = ainInput p) :=
        decide_eq_decide.mpr (ain_number_eq_iff _ p h1)
      have he2 : decide (ain_number pin_n = p.val) = decide (pin_n = ainInput p) :=
        decide_eq_decide.mpr (ain_number_eq_iff _ p h2)
      rw [if_pos h2, if_pos h1, testBit_set_ain, testBit_set_ain, he1, he2]
    · have he1 : decide (ain_number pin_p = p.val) = decide (pin_p = ainInput p) :=
        decide_eq_decide.mpr (ain_number_eq_iff _ p h1)
      have hd2 : decide (pin_n = ainInput p) = false := by
        rw [decide_eq_false_iff_not]; exact not_ain_ne_ainInput _ p h2
      rw [if_neg h2, if_pos h1, testBit_set_ain, he1, hd2]
      simp
    · have he2 : decide (ain_number pin_n = p.val) = decide (pin_n = ainInput p) :=
        decide_eq_decide.mpr (ain_number_eq_iff _ p h2)
      have hd1 : decide (pin_p = ainInput p) = false := by
        rw [decide_eq_false_iff_not]; exact not_ain_ne_ainInput _ p h1
      rw [if_pos h2, if_neg h1, testBit_set_ain, he2, hd1]
      simp
    · have hd1 : decide (pin_p = ainInput p) = false := by
        rw [decide_eq_false_iff_not]; exact not_ain_ne_ainInput _ p h1
      have hd2 : decide (pin_n = ainInput p) = false := by
        rw [decide_eq_false_iff_not]; exact not_ain_ne_ainInput _ p h2
      rw [if_neg h2, if_neg h1, hd1, hd2]
      simp
  have hcount : ∀ p : Fin 8,
      pinRefCount (nrf_drv_saadc_channel_init cb hw ch pin_p pin_n).2.1.psel p =
        pinRefCount cb.psel p +
          (if (decide (pin_p = ainInput p) || decide (pin_n = ainInput p)) = true then 1 else 0) := by
    intro p
    rw [hpsel]
    have h := pinRefCount_update cb.psel ch ⟨pin_p, pin_n⟩ p
    rw [hold p] at h
    simpa using h
  have key : ∀ p : Fin 8,
      ((nrf_drv_saadc_channel_init cb hw ch pin_p pin_n).2.1.allocated_ains.testBit p.val = true ↔
        pinRefCount (nrf_drv_saadc_channel_init cb hw ch pin_p pin_n).2.1.psel p = 1) ∧
      pinRefCount (nrf_drv_saadc_channel_init cb hw ch pin_p pin_n).2.1.psel p ≤ 1 := by
    intro p
    rw [hbit p, hcount p]
    by_cases hp1 : pin_p = ainInput p
    · have h1 : input_is_ain pin_p = true := hp1 ▸ input_is_ain_ainInput p
      have hb0 : cb.allocated_ains.testBit p.val = false := by
        have := hfreep h1
        rwa [(ain_number_eq_iff pin_p p h1).mpr hp1] at this
      have hcnt0 : pinRefCount cb.psel p = 0 := by
        have hle := hB p
        have hne : ¬ pinRefCount cb.psel p = 1 := by
          intro hc1
          have hbt := (hA p).mpr hc1
          rw [hb0] at hbt
          exact Bool.false_ne_true hbt
        omega
      simp [hp1, hb0, hcnt0]
    · by_cases hp2 : pin_n = ainInput p
      · have h2 : input_is_ain pin_n = true := hp2 ▸ input_is_ain_ainInput p
        have hb0 : cb.allocated_ains.testBit p.val = false := by
          have := hfreen h2
          rwa [(ain_number_eq_iff pin_n p h2).mpr hp2] at this
        have hcnt0 : pinRefCount cb.psel p = 0 := by
          have hle := hB p
          have hne : ¬ pinRefCount cb.psel p = 1 := by
            intro hc1
            have hbt := (hA p).mpr hc1
            rw [hb0] at hbt
            exact Bool.false_ne_true hbt
          omega
        simp [hp2, hb0, hcnt0]
      · have hd1 : decide (pin_p = ainInput p) = false := decide_eq_false hp1
        have hd2 : decide (pin_n = ainInput p) = false := decide_eq_false hp2
        rw [hd1, hd2]
        simpa using ⟨hA p, hB p⟩
  refine ⟨fun p => (key p).1, fun p => (key p).2, ?_⟩
  intro c
  rw [hpsel]
  by_cases hc : c = ch
  · subst hc
    rw [Function.update_same]
    intro h
    exact absurd h hpp
  · rw [Function.update_noteq hc]
    exact hC c

/-! ### Claim C5 -/

/-- C5 (counterexample): with channel 0 itself holding `AIN1` (input value 2),
re-requesting that same pin for channel 0 returns `NRF_ERROR_NO_MEM` even
though the pin is held by no *different* channel — `input_is_allocated`
consults only the global allocation bitmask, so same-channel reuse is
rejected too, contrary to the claim. -/
theorem C5_counterexample_same_channel_reuse :
    (cbOneChannel.psel ⟨0, by decide⟩).pselp = 2 ∧
    (∀ c : Fin NRF_SAADC_CHANNEL_COUNT, c.val ≠ 0 →
      (cbOneChannel.psel c).pselp ≠ 2 ∧ (cbOneChannel.psel c).pseln ≠ 2) ∧
    nrf_drv_saadc_channel_init cbOneChannel hw0 ⟨0, by decide⟩ 2 0 =
      (ret_code_t.NRF_ERROR_NO_MEM, cbOneChannel, hw0) := by
  refine ⟨rfl, by decide, rfl⟩

/-- C5 (amended): when the conversion state is idle, `channel_init` returns
`NRF_ERROR_NO_MEM` exactly when the requested positive or negative pin is
an analog-input pin whose allocation bit is set — i.e. a pin currently
allocated to *any* channel, the requesting channel included — and whenever
the pin check trips, the call returns with the control block and hardware
state untouched. -/
theorem C5_channel_init_no_mem_iff (cb : nrf_drv_saadc_cb_t) (hw : hw_state)
    (ch : Fin NRF_SAADC_CHANNEL_COUNT) (pin_p pin_n : Nat)
    (hidle : cb.adc_state = nrf_saadc_state_t.idle) :
    ((nrf_drv_saadc_channel_init cb hw ch pin_p pin_n).1 = ret_code_t.NRF_ERROR_NO_MEM ↔
      (input_is_allocated cb pin_p || input_is_allocated cb pin_n) = true) ∧
    ((input_is_allocated cb pin_p || input_is_allocated cb pin_n) = true →
      nrf_drv_saadc_channel_init cb hw ch pin_p pin_n = (ret_code_t.NRF_ERROR_NO_MEM, cb, hw)) :=
  channel_init_no_mem cb hw ch pin_p pin_n hidle

/-- Witness for `C5_channel_init_no_mem_iff` at a concrete state: channel 0
holds `AIN1`; requesting free pin `AIN2` is not a NoMemory failure, while
requesting the already-held `AIN1` is. -/
theorem C5_channel_init_no_mem_iff_witness :
    nrf_drv_saadc_channel_init cbOneChannel hw0 ⟨0, by decide⟩ 2 0 =
      (ret_code_t.NRF_ERROR_NO_MEM, cbOneChannel, hw0) ∧
    ¬ (nrf_drv_saadc_channel_init cbOneChannel hw0 ⟨0, by decide⟩ 3 0).1 =
      ret_code_t.NRF_ERROR_NO_MEM :=
  ⟨(C5_channel_init_no_mem_iff cbOneChannel hw0 ⟨0, by decide⟩ 2 0 rfl).2 (by decide),
   fun h => by
    have := ((C5_channel_init_no_mem_iff cbOneChannel hw0 ⟨0, by decide⟩ 3 0 rfl).1).mp h
    exact absurd this (by decide)⟩

/-! ### Claim C2 -/

/-- C2 (counterexample): `cbOneChannel` satisfies the claimed invariant
(each allocation bit set iff exactly one channel references the pin), and
`channel_init` applied to the already-active channel 0 with a different
free pin (`AIN2`, input value 3) succeeds — but the resulting state
violates the invariant: `AIN1`'s bit stays set although no channel
references it any more (the old pins of a re-initialized channel are never
released). -/
theorem C2_counterexample_reinit_leaks :
    allocBitsMatchRefs cbOneChannel ∧
    (nrf_drv_saadc_channel_init cbOneChannel hw0 ⟨0, by decide⟩ 3 0).1 =
      ret_code_t.NRF_SUCCESS ∧
    ¬ allocBitsMatchRefs (nrf_drv_saadc_channel_init cbOneChannel hw0 ⟨0, by decide⟩ 3 0).2.1 := by
  refine ⟨by decide, by decide, by decide⟩

/-- C2 (amended): strengthen the invariant to the conjunction of (a) each
allocation bit set iff exactly one channel references the pin, (b) every
pin referenced by at most one channel, and (c) a channel with a disabled
positive pin has a disabled negative pin.  Then every successful
`channel_uninit` preserves it, and every successful `channel_init` whose
target channel was previously inactive (with a non-disabled requested
positive pin, as the driver's own precondition assertion demands)
preserves it; `channel_init` on an already-active channel is excluded —
it leaks the old pins' allocation bits, as the counterexample shows. -/
theorem C2_pin_invariant_preservation :
    (∀ (cb : nrf_drv_saadc_cb_t) (hw : hw_state) (ch : Fin NRF_SAADC_CHANNEL_COUNT),
      cb.adc_state = nrf_saadc_state_t.idle →
      (nrf_drv_saadc_channel_uninit cb hw ch).1 = ret_code_t.NRF_SUCCESS →
      pinInvariant cb →
      pinInvariant (nrf_drv_saadc_channel_uninit cb hw ch).2.1) ∧
    (∀ (cb : nrf_drv_saadc_cb_t) (hw : hw_state) (ch : Fin NRF_SAADC_CHANNEL_COUNT)
        (pin_p pin_n : Nat),
      cb.adc_state = nrf_saadc_state_t.idle →
      (nrf_drv_saadc_channel_init cb hw ch pin_p pin_n).1 = ret_code_t.NRF_SUCCESS →
      (cb.psel ch).pselp = NRF_SAADC_INPUT_DISABLED →
      pin_p ≠ NRF_SAADC_INPUT_DISABLED →
      pinInvariant cb →
      pinInvariant (nrf_drv_saadc_channel_init cb hw ch pin_p pin_n).2.1) := by
  constructor
  · intro cb hw ch hidle _ hinv
    exact channel_uninit_preserves_pinInvariant cb hw ch hidle hinv
  · intro cb hw ch pin_p pin_n hidle hsucc hinact hpp hinv
    by_cases hfree : (input_is_allocated cb pin_p || input_is_allocated cb pin_n) = true
    · have := (channel_init_no_mem cb hw ch pin_p pin_n hidle).2 hfree
      rw [this] at hsucc
      simp at hsucc
    · exact channel_init_preserves_pinInvariant cb hw ch pin_p pin_n hidle
        (Bool.eq_false_iff.mpr hfree) hinact hpp hinv

/-- Witness for `C2_pin_invariant_preservation`: deconfiguring the one
active channel of `cbOneChannel`, and configuring channel 0 of the empty
state with `AIN1`, both preserve the invariant. -/
theorem C2_pin_invariant_preservation_witness :
    pinInvariant (nrf_drv_saadc_channel_uninit cbOneChannel hw0 ⟨0, by decide⟩).2.1 ∧
    pinInvariant (nrf_drv_saadc_channel_init cbIdleNoChannels hw0 ⟨0, by decide⟩ 2 0).2.1 :=
  ⟨C2_pin_invariant_preservation.1 cbOneChannel hw0 ⟨0, by decide⟩ rfl (by decide) (by decide),
   C2_pin_invariant_preservation.2 cbIdleNoChannels hw0 ⟨0, by decide⟩ 2 0 rfl (by decide)
     (by decide) (by decide) (by decide)⟩

theorem pinInvariant_of_fields (cb cb' : nrf_drv_saadc_cb_t)
    (hp : cb'.psel = cb.psel) (ha : cb'.allocated_ains = cb.allocated_ains) :
    pinInvariant cb → pinInvariant cb' := by
  intro h
  unfold pinInvariant allocBitsMatchRefs pinsExclusive pselWellFormed at *
  rw [hp, ha]
  exact h

theorem pinRefCount_zero (psel : Fin NRF_SAADC_CHANNEL_COUNT → nrf_saadc_psel_buffer)
    (hall : ∀ c, psel c = ⟨NRF_SAADC_INPUT_DISABLED, NRF_SAADC_INPUT_DISABLED⟩)
    (p : Fin 8) : pinRefCount psel p = 0 := by
  unfold pinRefCount
  refine Finset.sum_eq_zero fun c _ => ?_
  rw [if_neg]
  intro h
  rcases (channelRefsPin_eq_true_iff psel c p).mp h with h' | h' <;>
    rw [hall c] at h' <;> exact disabled_ne_ainInput p h'

theorem uninitChannelsLoop_spec :
    ∀ (fuel channel : Nat) (cb : nrf_drv_saadc_cb_t) (hw : hw_state),
    NRF_SAADC_CHANNEL_COUNT ≤ channel + fuel →
    cb.adc_state = nrf_saadc_state_t.idle →
    pinInvariant cb →
    (∀ c : Fin NRF_SAADC_CHANNEL_COUNT, c.val < channel →
      cb.psel c = ⟨NRF_SAADC_INPUT_DISABLED, NRF_SAADC_INPUT_DISABLED⟩) →
    pinInvariant (uninitChannelsLoop channel fuel cb hw).1 ∧
    (uninitChannelsLoop channel fuel cb hw).1.adc_state = cb.adc_state ∧
    (uninitChannelsLoop channel fuel cb hw).1.state = cb.state ∧
    (∀ c : Fin NRF_SAADC_CHANNEL_COUNT,
      (uninitChannelsLoop channel fuel cb hw).1.psel c =
        ⟨NRF_SAADC_INPUT_DISABLED, NRF_SAADC_INPUT_DISABLED⟩) := by
  intro fuel
  induction fuel with
  | zero =>
    intro channel cb hw hcnt hidle hinv hpre
    refine ⟨hinv, rfl, rfl, fun c => hpre c ?_⟩
    have := c.isLt
    omega
  | succ fuel ih =>
    intro channel cb hw hcnt hidle hinv hpre
    by_cases h : channel < NRF_SAADC_CHANNEL_COUNT
    · by_cases hp : (cb.psel ⟨channel, h⟩).pselp ≠ NRF_SAADC_INPUT_DISABLED
      · have hstep : uninitChannelsLoop channel (fuel + 1) cb hw =
            uninitChannelsLoop (channel + 1) fuel
              (nrf_drv_saadc_channel_uninit cb hw ⟨channel, h⟩).2.1
              (nrf_drv_saadc_channel_uninit cb hw ⟨channel, h⟩).2.2 := by
          simp only [uninitChannelsLoop, dif_pos h, if_pos hp]
        obtain ⟨-, hpsel, hadc, hstate, -⟩ := channel_uninit_shape cb hw ⟨channel, h⟩ hidle
        have hinv' := channel_uninit_preserves_pinInvariant cb hw ⟨channel, h⟩ hidle hinv
        have hpre' : ∀ c : Fin NRF_SAADC_CHANNEL_COUNT, c.val < channel + 1 →
            (nrf_drv_saadc_channel_uninit cb hw ⟨channel, h⟩).2.1.psel c =
              ⟨NRF_SAADC_INPUT_DISABLED, NRF_SAADC_INPUT_DISABLED⟩ := by
          intro c hc
          rw [hpsel]
          by_cases hcc : c = ⟨channel, h⟩
          · subst hcc
            rw [Function.update_same]
          · rw [Function.update_noteq hcc]
            refine hpre c ?_
            have : c.val ≠ channel := fun hv => hcc (Fin.ext hv)
            omega
        have hrec := ih (channel + 1)
          (nrf_drv_saadc_channel_uninit cb hw ⟨channel, h⟩).2.1
          (nrf_drv_saadc_channel_uninit cb hw ⟨channel, h⟩).2.2
          (by omega) (by rw [hadc, hidle]) hinv' hpre'
        rw [hstep]
        refine ⟨hrec.1, ?_, ?_, hrec.2.2.2⟩
        · rw [hrec.2.1, hadc]
        · rw [hrec.2.2.1, hstate]
      · have hp0 : (cb.psel ⟨channel, h⟩).pselp = NRF_SAADC_INPUT_DISABLED := not_not.mp hp
        have hn0 : (cb.psel ⟨channel, h⟩).pseln = NRF_SAADC_INPUT_DISABLED :=
          hinv.2.2 _ hp0
        have hzero : cb.psel ⟨channel, h⟩ =
            ⟨NRF_SAADC_INPUT_DISABLED, NRF_SAADC_INPUT_DISABLED⟩ := by
          rcases hv : cb.psel ⟨channel, h⟩ with ⟨a, b⟩
          rw [hv] at hp0 hn0
          simp only at hp0 hn0
          rw [hp0, hn0]
        have hstep : uninitChannelsLoop channel (fuel + 1) cb hw =
            uninitChannelsLoop (channel + 1) fuel cb hw := by
          simp only [uninitChannelsLoop, dif_pos h, if_neg hp]
        have hpre' : ∀ c : Fin NRF_SAADC_CHANNEL_COUNT, c.val < channel + 1 →
            cb.psel c = ⟨NRF_SAADC_INPUT_DISABLED, NRF_SAADC_INPUT_DISABLED⟩ := by
          intro c hc
          by_cases hcc : c = ⟨channel, h⟩
          · subst hcc
            exact hzero
          · refine hpre c ?_
            have : c.val ≠ channel := fun hv => hcc (Fin.ext hv)
            omega
        rw [hstep]
        exact ih (channel + 1) cb hw (by omega) hidle hinv hpre'
    · have hstep : uninitChannelsLoop channel (fuel + 1) cb hw = (cb, hw) := by
        simp only [uninitChannelsLoop, dif_neg h]
      rw [hstep]
      refine ⟨hinv, rfl, rfl, fun c => hpre c ?_⟩
      have := c.isLt
      omega

/-! ### Claim C8 -/

/-- C8 (counterexample): the reachable initialized state `cbLeaked` (no
channel configured, yet `AIN0`'s allocation bit stuck set by a previous
channel re-initialization) refutes the claim as stated for *every*
initialized driver state: after `uninit` the `allocated_ains` bitset is
not empty — no channel references the leaked pin, so the teardown loop
never releases it. -/
theorem C8_counterexample_leaked_pin_survives_uninit :
    cbLeaked.state = nrf_drv_state_t.initialized ∧
    (nrf_drv_saadc_uninit cbLeaked hw0 (fun _ => false)).1.allocated_ains.testBit 0 = true := by
  refine ⟨rfl, by decide⟩

/-- C8 (amended): for every initialized driver state satisfying the
pin-allocation invariant (allocation bit set iff exactly one channel
references the pin, at most one referencing channel per pin, and a channel
with a disabled positive pin has a disabled negative pin), after `uninit`
the `allocated_ains` bitset is empty, every channel's pin pair is cleared
to disabled, the conversion state is idle, the lifecycle is uninitialized,
and a subsequent `init` with a non-null handler succeeds. -/
theorem C8_uninit_teardown :
    ∀ (cb : nrf_drv_saadc_cb_t) (hw : hw_state) (stopped_obs : Nat → Bool),
      cb.state = nrf_drv_state_t.initialized →
      pinInvariant cb →
      (∀ p : Fin 8,
        (nrf_drv_saadc_uninit cb hw stopped_obs).1.allocated_ains.testBit p.val = false) ∧
      (∀ c : Fin NRF_SAADC_CHANNEL_COUNT,
        (nrf_drv_saadc_uninit cb hw stopped_obs).1.psel c =
          ⟨NRF_SAADC_INPUT_DISABLED, NRF_SAADC_INPUT_DISABLED⟩) ∧
      (nrf_drv_saadc_uninit cb hw stopped_obs).1.adc_state = nrf_saadc_state_t.idle ∧
      (nrf_drv_saadc_uninit cb hw stopped_obs).1.state = nrf_drv_state_t.uninitialized ∧
      (∀ (p_config : Option nrf_drv_saadc_config_t) (handler : Nat), handler ≠ 0 →
        (nrf_drv_saadc_init (nrf_drv_saadc_uninit cb hw stopped_obs).1
          (nrf_drv_saadc_uninit cb hw stopped_obs).2 p_config handler).1 =
            ret_code_t.NRF_SUCCESS) := by
  intro cb hw stopped_obs hinit hinv
  have hinv1 : pinInvariant { cb with adc_state := nrf_saadc_state_t.idle } :=
    pinInvariant_of_fields cb _ rfl rfl hinv
  have hLoop := uninitChannelsLoop_spec NRF_SAADC_CHANNEL_COUNT 0
    { cb with adc_state := nrf_saadc_state_t.idle }
    (nrf_saadc_int_disable NRF_SAADC_INT_END
      { nrf_saadc_task_trigger NRF_SAADC_TASK_STOP hw with enabled := false, irq_enabled := false })
    (by omega) rfl hinv1 (fun c hc => absurd hc (by omega))
  have hred : nrf_drv_saadc_uninit cb hw stopped_obs =
      ({ (uninitChannelsLoop 0 NRF_SAADC_CHANNEL_COUNT
            { cb with adc_state := nrf_saadc_state_t.idle }
            (nrf_saadc_int_disable NRF_SAADC_INT_END
              { nrf_saadc_task_trigger NRF_SAADC_TASK_STOP hw with
                  enabled := false, irq_enabled := false })).1 with
          state := nrf_drv_state_t.uninitialized },
        (uninitChannelsLoop 0 NRF_SAADC_CHANNEL_COUNT
            { cb with adc_state := nrf_saadc_state_t.idle }
            (nrf_saadc_int_disable NRF_SAADC_INT_END
              { nrf_saadc_task_trigger NRF_SAADC_TASK_STOP hw with
                  enabled := false, irq_enabled := false })).2) := rfl
  rw [hred]
  refine ⟨?_, ?_, ?_, rfl, ?_⟩
  · intro p
    have hzero := pinRefCount_zero _ hLoop.2.2.2 p
    have hiff := hLoop.1.1 p
    rw [Bool.eq_false_iff]
    intro hbt
    have := hiff.mp hbt
    omega
  · exact hLoop.2.2.2
  · rw [hLoop.2.1]
  · intro p_config handler hh
    simp [nrf_drv_saadc_init, hh]

/-- Witness for `C8_uninit_teardown` at the concrete one-channel state. -/
theorem C8_uninit_teardown_witness :
    (nrf_drv_saadc_uninit cbOneChannel hw0 (fun _ => false)).1.state =
      nrf_drv_state_t.uninitialized ∧
    (nrf_drv_saadc_init (nrf_drv_saadc_uninit cbOneChannel hw0 (fun _ => false)).1
      (nrf_drv_saadc_uninit cbOneChannel hw0 (fun _ => false)).2 none 1).1 =
        ret_code_t.NRF_SUCCESS :=
  ⟨(C8_uninit_teardown cbOneChannel hw0 (fun _ => false) rfl (by decide)).2.2.2.1,
   (C8_uninit_teardown cbOneChannel hw0 (fun _ => false) rfl (by decide)).2.2.2.2 none 1
     (by decide)⟩

theorem int_end_enabled (y : Nat) : (y ||| NRF_SAADC_INT_END) &&& NRF_SAADC_INT_END ≠ 0 := by
  have h2 : NRF_SAADC_INT_END = 1 <<< 1 := rfl
  rw [h2]
  refine (and_pow_ne_zero_iff _ 1).mpr ?_
  have h := testBit_set_ain y 1 ⟨1, by decide⟩
  simp only [Fin.val] at h  -- (y ||| 1 <<< 1).testBit 1 = (y.testBit 1 || decide (1 = 1))
  rw [h]
  simp

/-! ### Claim C10 -/

/-- C10: for every channel argument (a channel that was never configured,
whose pins are disabled, included) and whatever the bounded wait for the
end-of-conversion event observes (`end_obs` is universally quantified and
the result does not depend on it), `sample_convert` called while the
conversion state is idle returns `NRF_SUCCESS`, and on return the
conversion state is idle again and the `END` interrupt bit is set in the
interrupt mask. -/
theorem C10_sample_convert_total :
    ∀ (cb : nrf_drv_saadc_cb_t) (hw : hw_state) (channel : Fin NRF_SAADC_CHANNEL_COUNT)
      (p_value : Nat) (end_obs : Nat → Bool),
      cb.adc_state = nrf_saadc_state_t.idle →
      (nrf_drv_saadc_sample_convert cb hw channel p_value end_obs).1 = ret_code_t.NRF_SUCCESS ∧
      (nrf_drv_saadc_sample_convert cb hw channel p_value end_obs).2.1.adc_state =
        nrf_saadc_state_t.idle ∧
      (nrf_drv_saadc_sample_convert cb hw channel p_value end_obs).2.2.int_mask &&&
        NRF_SAADC_INT_END ≠ 0 := by
  intro cb hw channel p_value end_obs hidle
  have hne : ¬ cb.adc_state ≠ nrf_saadc_state_t.idle := by simp [hidle]
  refine ⟨?_, ?_, ?_⟩
  · simp only [nrf_drv_saadc_sample_convert, if_neg hne]
  · simp only [nrf_drv_saadc_sample_convert, if_neg hne]
  · simp only [nrf_drv_saadc_sample_convert, if_neg hne]
    exact int_end_enabled _

/-- Witness for `C10_sample_convert_total` at a concrete idle state, on the
never-configured channel 3, with a wait trace that never observes the event. -/
theorem C10_sample_convert_total_witness :
    (nrf_drv_saadc_sample_convert cbOneChannel hw0 ⟨3, by decide⟩ 55 (fun _ => false)).1 =
      ret_code_t.NRF_SUCCESS ∧
    (nrf_drv_saadc_sample_convert cbOneChannel hw0 ⟨3, by decide⟩ 55 (fun _ => false)).2.1.adc_state =
      nrf_saadc_state_t.idle :=
  ⟨(C10_sample_convert_total cbOneChannel hw0 ⟨3, by decide⟩ 55 (fun _ => false) rfl).1,
   (C10_sample_convert_total cbOneChannel hw0 ⟨3, by decide⟩ 55 (fun _ => false) rfl).2.1⟩

theorem limitScan_hw_projections :
    ∀ (fuel flags : Nat) (hw : hw_state) (evts : List nrf_drv_saadc_evt_t),
    (limitScan hw evts fuel flags).1.tasks = hw.tasks ∧
    (limitScan hw evts fuel flags).1.ch_input = hw.ch_input := by
  intro fuel
  induction fuel with
  | zero => intro flags hw evts; exact ⟨rfl, rfl⟩
  | succ fuel ih =>
    intro flags hw evts
    simp only [limitScan]
    by_cases h0 : flags = 0
    · rw [if_pos h0]
      exact ⟨rfl, rfl⟩
    · rw [if_neg h0]
      by_cases hev : nrf_saadc_event_check (FLAG_IDX_TO_EVENT (clz32 flags)) hw = true
      · rw [if_pos hev]
        exact ih _ _ _
      · rw [if_neg hev]
        exact ih _ _ _

theorem irq_phase2_cb_projections (cb : nrf_drv_saadc_cb_t) (hw : hw_state)
    (evts : List nrf_drv_saadc_evt_t) :
    (irq_phase2 cb hw evts).1.p_secondary_buffer = cb.p_secondary_buffer ∧
    (irq_phase2 cb hw evts).1.secondary_buffer_size = cb.secondary_buffer_size ∧
    (irq_phase2 cb hw evts).1.scan_pos = cb.scan_pos := by
  unfold irq_phase2
  split
  · exact ⟨rfl, rfl, rfl⟩
  · exact ⟨rfl, rfl, rfl⟩

theorem irq_phase2_hw_projections (cb : nrf_drv_saadc_cb_t) (hw : hw_state)
    (evts : List nrf_drv_saadc_evt_t) :
    (irq_phase2 cb hw evts).2.1.tasks = hw.tasks ∧
    (irq_phase2 cb hw evts).2.1.ch_input = hw.ch_input := by
  unfold irq_phase2
  split
  · exact ⟨rfl, rfl⟩
  · exact limitScan_hw_projections _ _ _ _

theorem buffer_convert_secondaryEvolves (cb : nrf_drv_saadc_cb_t) (hw : hw_state)
    (p_buffer size : Nat) (started_fires : Bool)
    (r : ret_code_t × nrf_drv_saadc_cb_t × hw_state)
    (h : nrf_drv_saadc_buffer_convert cb hw p_buffer size started_fires = some r) :
    secondaryEvolves cb r.2.1 := by
  by_cases hbusy : cb.adc_state = nrf_saadc_state_t.busy
  · by_cases hsec : cb.p_secondary_buffer ≠ 0
    · simp only [nrf_drv_saadc_buffer_convert, if_pos hbusy, if_pos hsec] at h
      cases h
      intro _
      exact Or.inl ⟨rfl, rfl⟩
    · intro hne
      exact absurd (not_not.mp hsec) hne
  · cases hscan : scanForActive cb.psel 0 with
    | none =>
      simp only [nrf_drv_saadc_buffer_convert, if_neg hbusy, hscan] at h
      rw [if_pos (by decide)] at h
      cases h
      intro _
      exact Or.inl ⟨rfl, rfl⟩
    | some i =>
      simp only [nrf_drv_saadc_buffer_convert, if_neg hbusy, hscan] at h
      by_cases hrange : NRF_SAADC_CHANNEL_COUNT ≤ i
      · rw [if_pos hrange] at h
        cases h
        intro _
        exact Or.inl ⟨rfl, rfl⟩
      · rw [if_neg hrange] at h
        cases h
        intro _
        exact Or.inr rfl

theorem irq_secondaryEvolves (cb : nrf_drv_saadc_cb_t) (hw : hw_state)
    (r : nrf_drv_saadc_cb_t × hw_state × List nrf_drv_saadc_evt_t)
    (h : SAADC_IRQHandler cb hw = some r) :
    secondaryEvolves cb r.1 := by
  by_cases hEND : nrf_saadc_event_check NRF_SAADC_EVENT_END hw = true
  · by_cases hact : cb.active_channels = 1
    · by_cases hsec : cb.p_secondary_buffer = 0
      · simp only [SAADC_IRQHandler, if_pos hEND, if_pos hact, if_pos hsec] at h
        cases h
        intro hne
        exact absurd hsec hne
      · simp only [SAADC_IRQHandler, if_pos hEND, if_pos hact, if_neg hsec] at h
        cases h
        intro _
        obtain ⟨h1, -, -⟩ := irq_phase2_cb_projections _ _ _
        exact Or.inr (by rw [h1])
    · by_cases hfull : (cb.buffer_pos + 1) % 65536 = cb.buffer_size
      · by_cases hsec : cb.p_secondary_buffer = 0
        · simp only [SAADC_IRQHandler, if_pos hEND, if_neg hact, if_pos hfull, if_pos hsec] at h
          cases h
          intro hne
          exact absurd hsec hne
        · simp only [SAADC_IRQHandler, if_pos hEND, if_neg hact, if_pos hfull, if_neg hsec] at h
          split at h
          · exact absurd h (by simp)
          · rename_i rr hbc
            cases h
            intro hne
            have hmid := buffer_convert_secondaryEvolves _ _ _ _ _ _ hbc
            have hmidne : ({ cb with
                buffer_pos := (cb.buffer_pos + 1) % 65536,
                adc_state := nrf_saadc_state_t.idle } :
                  nrf_drv_saadc_cb_t).p_secondary_buffer ≠ 0 := hne
            obtain ⟨h1, h2, -⟩ := irq_phase2_cb_projections rr.2.1 rr.2.2 _
            rcases hmid hmidne with ⟨ha, hb⟩ | ha
            · exact Or.inl ⟨by rw [h1]; exact ha, by rw [h2]; exact hb⟩
            · exact Or.inr (by rw [h1]; exact ha)
      · simp only [SAADC_IRQHandler, if_pos hEND, if_neg hact, if_neg hfull] at h
        split at h
        · cases h
          intro _
          exact Or.inl ⟨rfl, rfl⟩
        · split at h
          · cases h
            intro _
            obtain ⟨h1, h2, -⟩ := irq_phase2_cb_projections _ _ _
            exact Or.inl ⟨h1, h2⟩
          · cases h
            intro _
            obtain ⟨h1, h2, -⟩ := irq_phase2_cb_projections _ _ _
            exact Or.inl ⟨h1, h2⟩
  · simp only [SAADC_IRQHandler, if_neg hEND] at h
    cases h
    intro _
    obtain ⟨h1, h2, -⟩ := irq_phase2_cb_projections cb hw []
    exact Or.inl ⟨h1, h2⟩

/-! ### Claim C6 -/

/-- C6: the secondary buffer slot is never overwritten while present: a
`buffer_convert` call made while busy with a secondary buffer already
queued returns `NRF_ERROR_BUSY` with the control block unchanged, and
across any `buffer_convert` or interrupt-handler step a present secondary
buffer is either left exactly as it is or consumed (cleared to absent,
at buffer completion) — it never changes to a different present value
(`secondaryEvolves`). -/
theorem C6_secondary_buffer_discipline :
    ∀ (cb : nrf_drv_saadc_cb_t) (hw : hw_state) (p_buffer size : Nat) (started_fires : Bool),
      (cb.adc_state = nrf_saadc_state_t.busy → cb.p_secondary_buffer ≠ 0 →
        (nrf_drv_saadc_buffer_convert cb hw p_buffer size started_fires).map
            (fun r => (r.1, r.2.1)) = some (ret_code_t.NRF_ERROR_BUSY, cb)) ∧
      (∀ r, nrf_drv_saadc_buffer_convert cb hw p_buffer size started_fires = some r →
        secondaryEvolves cb r.2.1) ∧
      (∀ r, SAADC_IRQHandler cb hw = some r → secondaryEvolves cb r.1) := by
  intro cb hw p_buffer size started_fires
  refine ⟨?_, ?_, ?_⟩
  · intro hbusy hsec
    simp [nrf_drv_saadc_buffer_convert, if_pos hbusy, if_pos hsec]
  · intro r hr
    exact buffer_convert_secondaryEvolves cb hw p_buffer size started_fires r hr
  · intro r hr
    exact irq_secondaryEvolves cb hw r hr

/-- Witness for `C6_secondary_buffer_discipline`: with a secondary buffer
already queued at 200, a third `buffer_convert` returns busy and the
queued buffer survives untouched. -/
theorem C6_secondary_buffer_discipline_witness :
    cbBusyQueued.p_secondary_buffer = 200 ∧
    (nrf_drv_saadc_buffer_convert cbBusyQueued hw0 300 4 false).map
        (fun r => (r.1, r.2.1)) = some (ret_code_t.NRF_ERROR_BUSY, cbBusyQueued) :=
  ⟨rfl, (C6_secondary_buffer_discipline cbBusyQueued hw0 300 4 false).1 rfl (by decide)⟩

/-! ### The active-channel search loops -/

theorem scanForActiveAux_none (psel : Fin NRF_SAADC_CHANNEL_COUNT → nrf_saadc_psel_buffer) :
    ∀ (fuel i : Nat),
    (∀ j (hj : j < NRF_SAADC_CHANNEL_COUNT), i ≤ j →
      (psel ⟨j, hj⟩).pselp = NRF_SAADC_INPUT_DISABLED) →
    scanForActiveAux psel i fuel = none := by
  intro fuel
  induction fuel with
  | zero => intro i _; rfl
  | succ fuel ih =>
    intro i hall
    simp only [scanForActiveAux]
    by_cases h : i < NRF_SAADC_CHANNEL_COUNT
    · rw [dif_pos h, if_neg (by simpa using hall i h (Nat.le_refl i))]
      exact ih (i + 1) fun j hj hij => hall j hj (by omega)
    · rw [dif_neg h]

theorem scanForActiveAux_some (psel : Fin NRF_SAADC_CHANNEL_COUNT → nrf_saadc_psel_buffer) :
    ∀ (fuel i k : Nat) (hk : k < NRF_SAADC_CHANNEL_COUNT),
    i ≤ k → k < i + fuel →
    (psel ⟨k, hk⟩).pselp ≠ NRF_SAADC_INPUT_DISABLED →
    (∀ j (hj : j < NRF_SAADC_CHANNEL_COUNT), i ≤ j → j < k →
      (psel ⟨j, hj⟩).pselp = NRF_SAADC_INPUT_DISABLED) →
    scanForActiveAux psel i fuel = some k := by
  intro fuel
  induction fuel with
  | zero => intro i k hk hik hfuel _ _; omega
  | succ fuel ih =>
    intro i k hk hik hfuel hact hmin
    have hi : i < NRF_SAADC_CHANNEL_COUNT := by omega
    simp only [scanForActiveAux, dif_pos hi]
    by_cases hik' : i = k
    · subst hik'
      rw [if_pos hact]
    · rw [if_neg (by simpa using hmin i hi (Nat.le_refl i) (by omega))]
      exact ih (i + 1) k hk (by omega) (by omega) hact
        (fun j hj hij hjk => hmin j hj (by omega) hjk)

theorem scanForActive_eq_none (psel : Fin NRF_SAADC_CHANNEL_COUNT → nrf_saadc_psel_buffer)
    (i : Nat)
    (hall : ∀ j (hj : j < NRF_SAADC_CHANNEL_COUNT), i ≤ j →
      (psel ⟨j, hj⟩).pselp = NRF_SAADC_INPUT_DISABLED) :
    scanForActive psel i = none :=
  scanForActiveAux_none psel _ i hall

theorem scanForActive_zero_eq_some (psel : Fin NRF_SAADC_CHANNEL_COUNT → nrf_saadc_psel_buffer)
    (k : Nat) (hk : k < NRF_SAADC_CHANNEL_COUNT)
    (hact : (psel ⟨k, hk⟩).pselp ≠ NRF_SAADC_INPUT_DISABLED)
    (hmin : ∀ j (hj : j < NRF_SAADC_CHANNEL_COUNT), j < k →
      (psel ⟨j, hj⟩).pselp = NRF_SAADC_INPUT_DISABLED) :
    scanForActive psel 0 = some k :=
  scanForActiveAux_some psel _ 0 k hk (Nat.zero_le k) (by omega) hact
    (fun j hj _ hjk => hmin j hj hjk)

/-! ### Claim C3 -/

/-- C3 (amended): in the multi-channel interrupt path, on an
end-of-conversion event with the primary buffer not yet full and no active
channel at an index strictly greater than the scan cursor, the handler
wraps the cursor to the first active channel `k` from the beginning and
programs that channel's pins into the input mux — but it triggers only the
start task; the sample task is not triggered on the wrap path (the next
scan round begins on the next sample trigger), unlike the non-wrap
advance path, which triggers both. -/
theorem C3_scan_wrap (cb : nrf_drv_saadc_cb_t) (hw : hw_state) (k : Nat)
    (hk : k < NRF_SAADC_CHANNEL_COUNT)
    (hEND : nrf_saadc_event_check NRF_SAADC_EVENT_END hw = true)
    (hact : ¬ cb.active_channels = 1)
    (hnotfull : ¬ (cb.buffer_pos + 1) % 65536 = cb.buffer_size)
    (hcursor : cb.scan_pos < NRF_SAADC_CHANNEL_COUNT)
    (hnoafter : ∀ j (hj : j < NRF_SAADC_CHANNEL_COUNT), cb.scan_pos < j →
      (cb.psel ⟨j, hj⟩).pselp = NRF_SAADC_INPUT_DISABLED)
    (hfirst : (cb.psel ⟨k, hk⟩).pselp ≠ NRF_SAADC_INPUT_DISABLED)
    (hmin : ∀ j (hj : j < NRF_SAADC_CHANNEL_COUNT), j < k →
      (cb.psel ⟨j, hj⟩).pselp = NRF_SAADC_INPUT_DISABLED) :
    (SAADC_IRQHandler cb hw).map (fun r => r.1.scan_pos) = some k ∧
    (SAADC_IRQHandler cb hw).map (fun r => r.2.1.ch_input ⟨k, hk⟩) =
      some ((cb.psel ⟨k, hk⟩).pselp, (cb.psel ⟨k, hk⟩).pseln) ∧
    (SAADC_IRQHandler cb hw).map (fun r => r.2.1.tasks) =
      some (hw.tasks ++ [NRF_SAADC_TASK_START]) := by
  have hc8 : NRF_SAADC_CHANNEL_COUNT = 8 := rfl
  have hmod : (cb.scan_pos + 1) % 256 = cb.scan_pos + 1 :=
    Nat.mod_eq_of_lt (by omega)
  have hscan1 : scanForActive cb.psel (cb.scan_pos + 1) = none :=
    scanForActive_eq_none cb.psel _ (fun j hj hij => hnoafter j hj (by omega))
  have hscan0 : scanForActive cb.psel 0 = some k :=
    scanForActive_zero_eq_some cb.psel k hk hfirst hmin
  simp only [SAADC_IRQHandler, if_pos hEND, if_neg hact, if_neg hnotfull,
    nrf_saadc_event_clear, nrf_saadc_buffer_init, nrf_saadc_channel_input_set,
    nrf_saadc_task_trigger, hmod, hscan1, hscan0, hcursor, hk,
    Option.map_some', Option.some.injEq]
  refine ⟨?_, ?_, ?_⟩
  · rw [(irq_phase2_cb_projections _ _ _).2.2]
  · rw [(irq_phase2_hw_projections _ _ _).2]
    simp [pselAt, hk, Function.update_same]
  · rw [(irq_phase2_hw_projections _ _ _).1]
    simp

/-- C3 (counterexample): concrete two-channel scan state (channels 0 and 1
active, cursor on 1, buffer 2 of 4 full) with the `END` event fired: the
claim says the handler triggers both the start and the sample task before
returning, but the handler's task log gains exactly
`[NRF_SAADC_TASK_START]` — the sample task is absent. -/
theorem C3_counterexample_no_sample_on_wrap :
    cbScanTwo.active_channels ≠ 1 ∧
    (cbScanTwo.buffer_pos + 1) % 65536 ≠ cbScanTwo.buffer_size ∧
    (∀ j : Fin NRF_SAADC_CHANNEL_COUNT, cbScanTwo.scan_pos < j.val →
      (cbScanTwo.psel j).pselp = NRF_SAADC_INPUT_DISABLED) ∧
    nrf_saadc_event_check NRF_SAADC_EVENT_END hwEndFired = true ∧
    (SAADC_IRQHandler cbScanTwo hwEndFired).map (fun r => r.2.1.tasks) =
      some [NRF_SAADC_TASK_START] ∧
    ¬ NRF_SAADC_TASK_SAMPLE ∈ [NRF_SAADC_TASK_START] := by
  refine ⟨by decide, by decide, by decide, rfl, by decide, by decide⟩

/-- Witness for `C3_scan_wrap` at the concrete two-channel scan state:
the cursor wraps to channel 0 and only the start task is triggered. -/
theorem C3_scan_wrap_witness :
    (SAADC_IRQHandler cbScanTwo hwEndFired).map (fun r => r.1.scan_pos) = some 0 ∧
    (SAADC_IRQHandler cbScanTwo hwEndFired).map (fun r => r.2.1.tasks) =
      some (hwEndFired.tasks ++ [NRF_SAADC_TASK_START]) := by
  have h := C3_scan_wrap cbScanTwo hwEndFired 0 (by decide) rfl (by decide) (by decide)
    (by decide)
    (by
      intro j hj hlt
      have h1 : (1 : Nat) < j := hlt
      have h2 : j < 8 := hj
      interval_cases j <;> rfl)
    (by decide)
    (fun j hj h => absurd h (Nat.not_lt_zero j))
  exact ⟨h.1, h.2.2⟩
